import Mathlib

/-!
# BDAP certificate record (`src/bdap/certificate.cpp`)

A shallow embedding of `CCertificate`: the field validator `ValidateValues`, the three hash
domains (`GetHash`, `GetSubjectHash`, `GetIssuerHash`), the binary codec
(`Serialize`, `UnserializeFromData`), the signature module (`SignSubject`, `SignIssuer`,
`CheckSubjectSignature`, `CheckIssuerSignature`), the ledger-linkage resolver
(`UnserializeFromTx`) and the presentation builder (`BuildCertificateJson`).

Conventions of the embedding:

* `unsigned char` is `Fin 256`; `std::vector<unsigned char>` (`CharString`) is a list of
  bytes and `std::vector<CharString>` (`vCharString`) a list of those.
* Machine integers are `Nat`/`Int`; the ranges of their C++ types are collected in
  `CCertificate.InRange`, together with the `size_t` range of every vector length.
* `uint256` is the 256-bit value itself (`Fin (2^256)`).
* A reference parameter that a method assigns (`errorMessage`, `*this`) is passed in and returned.
* The digest function `Hash` of `hash.h` is a parameter of everything that hashes.
* The ed25519 functions of libtorrent, the ledger functions that `UnserializeFromTx` calls and
  the chain and rendering helpers that `BuildCertificateJson` calls are parameters (`Ed25519`,
  `Ledger`, `Chain`, `Rendering`).
* A call whose result C++ leaves undefined, or that throws, has the result `none`.
-/

set_option autoImplicit false

namespace BDAP

/-! ## Data model -/

/-- One `unsigned char`. -/
abbrev Byte := Fin 256

/-- The type `CharString`, a `std::vector<unsigned char>`. -/
abbrev CharString := List Byte

/-- The type `vCharString`, a `std::vector<CharString>`. -/
abbrev vCharString := List CharString

/-- The type `uint256`: a 256-bit value. -/
abbrev uint256 := Fin (2 ^ 256)

/-- The data members of `CCertificate` that `certificate.cpp` reads and writes. -/
structure CCertificate where
  nVersion : Int
  MonthsValid : Nat
  FingerPrint : CharString
  SignatureAlgorithm : CharString
  SignatureHashAlgorithm : CharString
  Subject : CharString
  SubjectSignature : CharString
  Issuer : CharString
  PublicKey : CharString
  SignatureValue : CharString
  SerialNumber : Nat
  KeyUsage : vCharString
  ExtendedKeyUsage : vCharString
  AuthorityInformationAccess : vCharString
  SubjectAlternativeName : vCharString
  Policies : vCharString
  CRLDistributionPoints : vCharString
  SCTList : vCharString
  txHashRequest : uint256
  nHeightRequest : Nat
  txHashApprove : uint256
  nHeightApprove : Nat
  deriving DecidableEq

/-- The length constants that `ValidateValues` compares against. Their defining header is not
among the sources, so they are parameters of the validator. -/
structure Limits where
  MAX_ALGORITHM_TYPE_LENGTH : Nat
  MAX_CERTIFICATE_FINGERPRINT : Nat
  MAX_OBJECT_FULL_PATH_LENGTH : Nat
  MAX_CERTIFICATE_SIGNATURE_LENGTH : Nat
  MAX_CERTIFICATE_KEY_LENGTH : Nat
  MAX_CERTIFICATE_EXTENSION_RECORDS : Nat
  MAX_CERTIFICATE_EXTENSION_LENGTH : Nat

/-! ## Field validator -/

/-- The range-for loop of `ValidateValues` over one extension list: `true` when some element
is longer than `maxLen` (the loop then returns with the list's message). -/
def tooLongElement (maxLen : Nat) : vCharString → Bool
  | [] => false
  | v :: vs => if v.length > maxLen then true else tooLongElement maxLen vs

/-- `CCertificate::ValidateValues(std::string& errorMessage)`: the checks in source order, each
one returning `false` with its message; `errorMessage` is untouched on success. -/
def ValidateValues (L : Limits) (c : CCertificate) (errorMessage : String) : Bool × String :=
  if c.Subject.length = 0 then
    (false, "Subject cannot be empty.")
  else if c.SubjectSignature.length = 0 then
    (false, "Subject Signature cannot be empty.")
  else if c.PublicKey.length = 0 then
    (false, "Public Key cannot be empty.")
  else if c.SignatureAlgorithm.length > L.MAX_ALGORITHM_TYPE_LENGTH then
    (false, "Invalid Signature Algorithm. Can not have more than "
      ++ toString L.MAX_ALGORITHM_TYPE_LENGTH ++ " characters.")
  else if c.SignatureHashAlgorithm.length > L.MAX_ALGORITHM_TYPE_LENGTH then
    (false, "Invalid Signature Hash Algorithm. Can not have more than "
      ++ toString L.MAX_ALGORITHM_TYPE_LENGTH ++ " characters.")
  else if c.FingerPrint.length > L.MAX_CERTIFICATE_FINGERPRINT then
    (false, "Invalid Finger Print. Can not have more than "
      ++ toString L.MAX_CERTIFICATE_FINGERPRINT ++ " characters.")
  else if c.Subject.length > L.MAX_OBJECT_FULL_PATH_LENGTH then
    (false, "Invalid Subject full path name. Can not have more than "
      ++ toString L.MAX_OBJECT_FULL_PATH_LENGTH ++ " characters.")
  else if c.SubjectSignature.length > L.MAX_CERTIFICATE_SIGNATURE_LENGTH then
    (false, "Invalid SubjectSignature. Can not have more than "
      ++ toString L.MAX_CERTIFICATE_SIGNATURE_LENGTH ++ " characters.")
  else if c.Issuer.length > L.MAX_OBJECT_FULL_PATH_LENGTH then
    (false, "Invalid Issuer full path name. Can not have more than "
      ++ toString L.MAX_OBJECT_FULL_PATH_LENGTH ++ " characters.")
  else if c.PublicKey.length > L.MAX_CERTIFICATE_KEY_LENGTH then
    (false, "Invalid PublicKey. Can not have more than "
      ++ toString L.MAX_CERTIFICATE_KEY_LENGTH ++ " characters.")
  else if c.SignatureValue.length > L.MAX_CERTIFICATE_SIGNATURE_LENGTH then
    (false, "Invalid SignatureValue. Can not have more than "
      ++ toString L.MAX_CERTIFICATE_SIGNATURE_LENGTH ++ " characters.")
  else if c.KeyUsage.length > L.MAX_CERTIFICATE_EXTENSION_RECORDS then
    (false, "Invalid KeyUsage size. Can not have more than "
      ++ toString L.MAX_CERTIFICATE_EXTENSION_RECORDS ++ " records.")
  else if tooLongElement L.MAX_CERTIFICATE_EXTENSION_LENGTH c.KeyUsage then
    (false, "Invalid KeyUsage. Can not have more than "
      ++ toString L.MAX_CERTIFICATE_EXTENSION_LENGTH ++ " characters.")
  else if c.ExtendedKeyUsage.length > L.MAX_CERTIFICATE_EXTENSION_RECORDS then
    (false, "Invalid ExtendedKeyUsage size. Can not have more than "
      ++ toString L.MAX_CERTIFICATE_EXTENSION_RECORDS ++ " records.")
  else if tooLongElement L.MAX_CERTIFICATE_EXTENSION_LENGTH c.ExtendedKeyUsage then
    (false, "Invalid ExtendedKeyUsage. Can not have more than "
      ++ toString L.MAX_CERTIFICATE_EXTENSION_LENGTH ++ " characters.")
  else if c.AuthorityInformationAccess.length > L.MAX_CERTIFICATE_EXTENSION_RECORDS then
    (false, "Invalid AuthorityInformationAccess size. Can not have more than "
      ++ toString L.MAX_CERTIFICATE_EXTENSION_RECORDS ++ " records.")
  else if tooLongElement L.MAX_CERTIFICATE_EXTENSION_LENGTH c.AuthorityInformationAccess then
    (false, "Invalid AuthorityInformationAccess. Can not have more than "
      ++ toString L.MAX_CERTIFICATE_EXTENSION_LENGTH ++ " characters.")
  else if c.SubjectAlternativeName.length > L.MAX_CERTIFICATE_EXTENSION_RECORDS then
    (false, "Invalid SubjectAlternativeName size. Can not have more than "
      ++ toString L.MAX_CERTIFICATE_EXTENSION_RECORDS ++ " records.")
  else if tooLongElement L.MAX_CERTIFICATE_EXTENSION_LENGTH c.SubjectAlternativeName then
    (false, "Invalid SubjectAlternativeName. Can not have more than "
      ++ toString L.MAX_CERTIFICATE_EXTENSION_LENGTH ++ " characters.")
  else if c.Policies.length > L.MAX_CERTIFICATE_EXTENSION_RECORDS then
    (false, "Invalid Policies size. Can not have more than "
      ++ toString L.MAX_CERTIFICATE_EXTENSION_RECORDS ++ " records.")
  else if tooLongElement L.MAX_CERTIFICATE_EXTENSION_LENGTH c.Policies then
    (false, "Invalid Policies. Can not have more than "
      ++ toString L.MAX_CERTIFICATE_EXTENSION_LENGTH ++ " characters.")
  else if c.CRLDistributionPoints.length > L.MAX_CERTIFICATE_EXTENSION_RECORDS then
    (false, "Invalid CRLDistributionPoints size. Can not have more than "
      ++ toString L.MAX_CERTIFICATE_EXTENSION_RECORDS ++ " records.")
  else if tooLongElement L.MAX_CERTIFICATE_EXTENSION_LENGTH c.CRLDistributionPoints then
    (false, "Invalid CRLDistributionPoints. Can not have more than "
      ++ toString L.MAX_CERTIFICATE_EXTENSION_LENGTH ++ " characters.")
  else if c.SCTList.length > L.MAX_CERTIFICATE_EXTENSION_RECORDS then
    (false, "Invalid SCTList size. Can not have more than "
      ++ toString L.MAX_CERTIFICATE_EXTENSION_RECORDS ++ " records.")
  else if tooLongElement L.MAX_CERTIFICATE_EXTENSION_LENGTH c.SCTList then
    (false, "Invalid SCTList. Can not have more than "
      ++ toString L.MAX_CERTIFICATE_EXTENSION_LENGTH ++ " characters.")
  else
    (true, errorMessage)

/-- The validator's conditions in the words of the specification (§4.1): the three
non-empty fields, the eight bounded byte strings, and for each extension list the bound on the
number of records and on the length of every record. -/
def WithinLimits (L : Limits) (c : CCertificate) : Prop :=
  (c.Subject ≠ [] ∧ c.SubjectSignature ≠ [] ∧ c.PublicKey ≠ []) ∧
  (c.SignatureAlgorithm.length ≤ L.MAX_ALGORITHM_TYPE_LENGTH ∧
   c.SignatureHashAlgorithm.length ≤ L.MAX_ALGORITHM_TYPE_LENGTH ∧
   c.FingerPrint.length ≤ L.MAX_CERTIFICATE_FINGERPRINT ∧
   c.Subject.length ≤ L.MAX_OBJECT_FULL_PATH_LENGTH ∧
   c.SubjectSignature.length ≤ L.MAX_CERTIFICATE_SIGNATURE_LENGTH ∧
   c.Issuer.length ≤ L.MAX_OBJECT_FULL_PATH_LENGTH ∧
   c.PublicKey.length ≤ L.MAX_CERTIFICATE_KEY_LENGTH ∧
   c.SignatureValue.length ≤ L.MAX_CERTIFICATE_SIGNATURE_LENGTH) ∧
  ((c.KeyUsage.length ≤ L.MAX_CERTIFICATE_EXTENSION_RECORDS ∧
      ∀ v ∈ c.KeyUsage, v.length ≤ L.MAX_CERTIFICATE_EXTENSION_LENGTH) ∧
   (c.ExtendedKeyUsage.length ≤ L.MAX_CERTIFICATE_EXTENSION_RECORDS ∧
      ∀ v ∈ c.ExtendedKeyUsage, v.length ≤ L.MAX_CERTIFICATE_EXTENSION_LENGTH) ∧
   (c.AuthorityInformationAccess.length ≤ L.MAX_CERTIFICATE_EXTENSION_RECORDS ∧
      ∀ v ∈ c.AuthorityInformationAccess, v.length ≤ L.MAX_CERTIFICATE_EXTENSION_LENGTH) ∧
   (c.SubjectAlternativeName.length ≤ L.MAX_CERTIFICATE_EXTENSION_RECORDS ∧
      ∀ v ∈ c.SubjectAlternativeName, v.length ≤ L.MAX_CERTIFICATE_EXTENSION_LENGTH) ∧
   (c.Policies.length ≤ L.MAX_CERTIFICATE_EXTENSION_RECORDS ∧
      ∀ v ∈ c.Policies, v.length ≤ L.MAX_CERTIFICATE_EXTENSION_LENGTH) ∧
   (c.CRLDistributionPoints.length ≤ L.MAX_CERTIFICATE_EXTENSION_RECORDS ∧
      ∀ v ∈ c.CRLDistributionPoints, v.length ≤ L.MAX_CERTIFICATE_EXTENSION_LENGTH) ∧
   (c.SCTList.length ≤ L.MAX_CERTIFICATE_EXTENSION_RECORDS ∧
      ∀ v ∈ c.SCTList, v.length ≤ L.MAX_CERTIFICATE_EXTENSION_LENGTH))

/-- One check of the validator: the condition under which it fails and the message it then
sets. -/
structure Check where
  violated : Prop
  [dec : Decidable violated]
  message : String

instance (ch : Check) : Decidable ch.violated := ch.dec

/-- The outcome of running a list of checks in order: `false` with the message of the first
violated check, or `true` with the caller's message untouched when none is violated. -/
def firstViolated : List Check → String → Bool × String
  | [], e => (true, e)
  | ch :: rest, e => @ite _ ch.violated ch.dec (false, ch.message) (firstViolated rest e)

/-- The checks of §4.1 in the specified order: the three non-empty checks, the eight length
checks in the listed field order, then for each extension list its record-count check followed
by its element-length check; each with the message the source sets for it. -/
def checks (L : Limits) (c : CCertificate) : List Check :=
  [ ⟨c.Subject.length = 0, "Subject cannot be empty."⟩,
    ⟨c.SubjectSignature.length = 0, "Subject Signature cannot be empty."⟩,
    ⟨c.PublicKey.length = 0, "Public Key cannot be empty."⟩,
    ⟨c.SignatureAlgorithm.length > L.MAX_ALGORITHM_TYPE_LENGTH,
      "Invalid Signature Algorithm. Can not have more than "
      ++ toString L.MAX_ALGORITHM_TYPE_LENGTH ++ " characters."⟩,
    ⟨c.SignatureHashAlgorithm.length > L.MAX_ALGORITHM_TYPE_LENGTH,
      "Invalid Signature Hash Algorithm. Can not have more than "
      ++ toString L.MAX_ALGORITHM_TYPE_LENGTH ++ " characters."⟩,
    ⟨c.FingerPrint.length > L.MAX_CERTIFICATE_FINGERPRINT,
      "Invalid Finger Print. Can not have more than "
      ++ toString L.MAX_CERTIFICATE_FINGERPRINT ++ " characters."⟩,
    ⟨c.Subject.length > L.MAX_OBJECT_FULL_PATH_LENGTH,
      "Invalid Subject full path name. Can not have more than "
      ++ toString L.MAX_OBJECT_FULL_PATH_LENGTH ++ " characters."⟩,
    ⟨c.SubjectSignature.length > L.MAX_CERTIFICATE_SIGNATURE_LENGTH,
      "Invalid SubjectSignature. Can not have more than "
      ++ toString L.MAX_CERTIFICATE_SIGNATURE_LENGTH ++ " characters."⟩,
    ⟨c.Issuer.length > L.MAX_OBJECT_FULL_PATH_LENGTH,
      "Invalid Issuer full path name. Can not have more than "
      ++ toString L.MAX_OBJECT_FULL_PATH_LENGTH ++ " characters."⟩,
    ⟨c.PublicKey.length > L.MAX_CERTIFICATE_KEY_LENGTH, "Invalid PublicKey. Can not have more than "
      ++ toString L.MAX_CERTIFICATE_KEY_LENGTH ++ " characters."⟩,
    ⟨c.SignatureValue.length > L.MAX_CERTIFICATE_SIGNATURE_LENGTH,
      "Invalid SignatureValue. Can not have more than "
      ++ toString L.MAX_CERTIFICATE_SIGNATURE_LENGTH ++ " characters."⟩,
    ⟨c.KeyUsage.length > L.MAX_CERTIFICATE_EXTENSION_RECORDS,
      "Invalid KeyUsage size. Can not have more than "
      ++ toString L.MAX_CERTIFICATE_EXTENSION_RECORDS ++ " records."⟩,
    ⟨tooLongElement L.MAX_CERTIFICATE_EXTENSION_LENGTH c.KeyUsage,
      "Invalid KeyUsage. Can not have more than "
      ++ toString L.MAX_CERTIFICATE_EXTENSION_LENGTH ++ " characters."⟩,
    ⟨c.ExtendedKeyUsage.length > L.MAX_CERTIFICATE_EXTENSION_RECORDS,
      "Invalid ExtendedKeyUsage size. Can not have more than "
      ++ toString L.MAX_CERTIFICATE_EXTENSION_RECORDS ++ " records."⟩,
    ⟨tooLongElement L.MAX_CERTIFICATE_EXTENSION_LENGTH c.ExtendedKeyUsage,
      "Invalid ExtendedKeyUsage. Can not have more than "
      ++ toString L.MAX_CERTIFICATE_EXTENSION_LENGTH ++ " characters."⟩,
    ⟨c.AuthorityInformationAccess.length > L.MAX_CERTIFICATE_EXTENSION_RECORDS,
      "Invalid AuthorityInformationAccess size. Can not have more than "
      ++ toString L.MAX_CERTIFICATE_EXTENSION_RECORDS ++ " records."⟩,
    ⟨tooLongElement L.MAX_CERTIFICATE_EXTENSION_LENGTH c.AuthorityInformationAccess,
      "Invalid AuthorityInformationAccess. Can not have more than "
      ++ toString L.MAX_CERTIFICATE_EXTENSION_LENGTH ++ " characters."⟩,
    ⟨c.SubjectAlternativeName.length > L.MAX_CERTIFICATE_EXTENSION_RECORDS,
      "Invalid SubjectAlternativeName size. Can not have more than "
      ++ toString L.MAX_CERTIFICATE_EXTENSION_RECORDS ++ " records."⟩,
    ⟨tooLongElement L.MAX_CERTIFICATE_EXTENSION_LENGTH c.SubjectAlternativeName,
      "Invalid SubjectAlternativeName. Can not have more than "
      ++ toString L.MAX_CERTIFICATE_EXTENSION_LENGTH ++ " characters."⟩,
    ⟨c.Policies.length > L.MAX_CERTIFICATE_EXTENSION_RECORDS,
      "Invalid Policies size. Can not have more than "
      ++ toString L.MAX_CERTIFICATE_EXTENSION_RECORDS ++ " records."⟩,
    ⟨tooLongElement L.MAX_CERTIFICATE_EXTENSION_LENGTH c.Policies,
      "Invalid Policies. Can not have more than "
      ++ toString L.MAX_CERTIFICATE_EXTENSION_LENGTH ++ " characters."⟩,
    ⟨c.CRLDistributionPoints.length > L.MAX_CERTIFICATE_EXTENSION_RECORDS,
      "Invalid CRLDistributionPoints size. Can not have more than "
      ++ toString L.MAX_CERTIFICATE_EXTENSION_RECORDS ++ " records."⟩,
    ⟨tooLongElement L.MAX_CERTIFICATE_EXTENSION_LENGTH c.CRLDistributionPoints,
      "Invalid CRLDistributionPoints. Can not have more than "
      ++ toString L.MAX_CERTIFICATE_EXTENSION_LENGTH ++ " characters."⟩,
    ⟨c.SCTList.length > L.MAX_CERTIFICATE_EXTENSION_RECORDS,
      "Invalid SCTList size. Can not have more than "
      ++ toString L.MAX_CERTIFICATE_EXTENSION_RECORDS ++ " records."⟩,
    ⟨tooLongElement L.MAX_CERTIFICATE_EXTENSION_LENGTH c.SCTList,
      "Invalid SCTList. Can not have more than "
      ++ toString L.MAX_CERTIFICATE_EXTENSION_LENGTH ++ " characters."⟩ ]

/-- The eight bounded byte-string fields, in the order `ValidateValues` checks their length. -/
inductive BoundedField where
  | SignatureAlgorithm | SignatureHashAlgorithm | FingerPrint | Subject
  | SubjectSignature | Issuer | PublicKey | SignatureValue
  deriving DecidableEq

/-- The maximum length constant `ValidateValues` uses for the field. -/
def BoundedField.max (L : Limits) : BoundedField → Nat
  | .SignatureAlgorithm => L.MAX_ALGORITHM_TYPE_LENGTH
  | .SignatureHashAlgorithm => L.MAX_ALGORITHM_TYPE_LENGTH
  | .FingerPrint => L.MAX_CERTIFICATE_FINGERPRINT
  | .Subject => L.MAX_OBJECT_FULL_PATH_LENGTH
  | .SubjectSignature => L.MAX_CERTIFICATE_SIGNATURE_LENGTH
  | .Issuer => L.MAX_OBJECT_FULL_PATH_LENGTH
  | .PublicKey => L.MAX_CERTIFICATE_KEY_LENGTH
  | .SignatureValue => L.MAX_CERTIFICATE_SIGNATURE_LENGTH

/-- The record with the field replaced by `v`. -/
def BoundedField.set (c : CCertificate) (v : CharString) : BoundedField → CCertificate
  | .SignatureAlgorithm => { c with SignatureAlgorithm := v }
  | .SignatureHashAlgorithm => { c with SignatureHashAlgorithm := v }
  | .FingerPrint => { c with FingerPrint := v }
  | .Subject => { c with Subject := v }
  | .SubjectSignature => { c with SubjectSignature := v }
  | .Issuer => { c with Issuer := v }
  | .PublicKey => { c with PublicKey := v }
  | .SignatureValue => { c with SignatureValue := v }

/-- Whether `ValidateValues` also requires the field to be non-empty. -/
def BoundedField.mustBeNonEmpty : BoundedField → Bool
  | .Subject => true
  | .SubjectSignature => true
  | .PublicKey => true
  | _ => false

/-- The message of the field's length check: it names the field and its maximum. -/
def BoundedField.message (L : Limits) : BoundedField → String
  | .SignatureAlgorithm => "Invalid Signature Algorithm. Can not have more than "
      ++ toString L.MAX_ALGORITHM_TYPE_LENGTH ++ " characters."
  | .SignatureHashAlgorithm => "Invalid Signature Hash Algorithm. Can not have more than "
      ++ toString L.MAX_ALGORITHM_TYPE_LENGTH ++ " characters."
  | .FingerPrint => "Invalid Finger Print. Can not have more than "
      ++ toString L.MAX_CERTIFICATE_FINGERPRINT ++ " characters."
  | .Subject => "Invalid Subject full path name. Can not have more than "
      ++ toString L.MAX_OBJECT_FULL_PATH_LENGTH ++ " characters."
  | .SubjectSignature => "Invalid SubjectSignature. Can not have more than "
      ++ toString L.MAX_CERTIFICATE_SIGNATURE_LENGTH ++ " characters."
  | .Issuer => "Invalid Issuer full path name. Can not have more than "
      ++ toString L.MAX_OBJECT_FULL_PATH_LENGTH ++ " characters."
  | .PublicKey => "Invalid PublicKey. Can not have more than "
      ++ toString L.MAX_CERTIFICATE_KEY_LENGTH ++ " characters."
  | .SignatureValue => "Invalid SignatureValue. Can not have more than "
      ++ toString L.MAX_CERTIFICATE_SIGNATURE_LENGTH ++ " characters."

/-- The seven extension lists, in the order `ValidateValues` checks them. -/
inductive ExtensionList where
  | KeyUsage | ExtendedKeyUsage | AuthorityInformationAccess | SubjectAlternativeName
  | Policies | CRLDistributionPoints | SCTList
  deriving DecidableEq

/-- The record with the extension list replaced by `l`. -/
def ExtensionList.set (c : CCertificate) (l : vCharString) : ExtensionList → CCertificate
  | .KeyUsage => { c with KeyUsage := l }
  | .ExtendedKeyUsage => { c with ExtendedKeyUsage := l }
  | .AuthorityInformationAccess => { c with AuthorityInformationAccess := l }
  | .SubjectAlternativeName => { c with SubjectAlternativeName := l }
  | .Policies => { c with Policies := l }
  | .CRLDistributionPoints => { c with CRLDistributionPoints := l }
  | .SCTList => { c with SCTList := l }

/-- The message of the list's record-count check. -/
def ExtensionList.recordsMessage (L : Limits) : ExtensionList → String
  | .KeyUsage => "Invalid KeyUsage size. Can not have more than "
      ++ toString L.MAX_CERTIFICATE_EXTENSION_RECORDS ++ " records."
  | .ExtendedKeyUsage => "Invalid ExtendedKeyUsage size. Can not have more than "
      ++ toString L.MAX_CERTIFICATE_EXTENSION_RECORDS ++ " records."
  | .AuthorityInformationAccess =>
      "Invalid AuthorityInformationAccess size. Can not have more than "
      ++ toString L.MAX_CERTIFICATE_EXTENSION_RECORDS ++ " records."
  | .SubjectAlternativeName => "Invalid SubjectAlternativeName size. Can not have more than "
      ++ toString L.MAX_CERTIFICATE_EXTENSION_RECORDS ++ " records."
  | .Policies => "Invalid Policies size. Can not have more than "
      ++ toString L.MAX_CERTIFICATE_EXTENSION_RECORDS ++ " records."
  | .CRLDistributionPoints => "Invalid CRLDistributionPoints size. Can not have more than "
      ++ toString L.MAX_CERTIFICATE_EXTENSION_RECORDS ++ " records."
  | .SCTList => "Invalid SCTList size. Can not have more than "
      ++ toString L.MAX_CERTIFICATE_EXTENSION_RECORDS ++ " records."

/-- The message of the list's element-length check. -/
def ExtensionList.charactersMessage (L : Limits) : ExtensionList → String
  | .KeyUsage => "Invalid KeyUsage. Can not have more than "
      ++ toString L.MAX_CERTIFICATE_EXTENSION_LENGTH ++ " characters."
  | .ExtendedKeyUsage => "Invalid ExtendedKeyUsage. Can not have more than "
      ++ toString L.MAX_CERTIFICATE_EXTENSION_LENGTH ++ " characters."
  | .AuthorityInformationAccess => "Invalid AuthorityInformationAccess. Can not have more than "
      ++ toString L.MAX_CERTIFICATE_EXTENSION_LENGTH ++ " characters."
  | .SubjectAlternativeName => "Invalid SubjectAlternativeName. Can not have more than "
      ++ toString L.MAX_CERTIFICATE_EXTENSION_LENGTH ++ " characters."
  | .Policies => "Invalid Policies. Can not have more than "
      ++ toString L.MAX_CERTIFICATE_EXTENSION_LENGTH ++ " characters."
  | .CRLDistributionPoints => "Invalid CRLDistributionPoints. Can not have more than "
      ++ toString L.MAX_CERTIFICATE_EXTENSION_LENGTH ++ " characters."
  | .SCTList => "Invalid SCTList. Can not have more than "
      ++ toString L.MAX_CERTIFICATE_EXTENSION_LENGTH ++ " characters."

/-! ## Stream encoding

`serialize.h`, `streams.h`, `uint256.h` and the class declaration in `bdap/certificate.h` are
not among the sources. The stream operators are modelled on §6 of the specification, "fixed-order
field-by-field encoding (length-prefixed variable-length fields, fixed-width integers)", in the
compact-size convention of `CDataStream`. A read that the C++ code aborts by throwing is `none`.
-/

/-- Modelled from the spec: a fixed-width integer on the wire (`serialize.h` is missing), as
`width` little-endian bytes of the value modulo `256 ^ width`. -/
def leBytes : Nat → Nat → List Byte
  | 0, _ => []
  | width + 1, n => ⟨n % 256, Nat.mod_lt _ (by decide)⟩ :: leBytes width (n / 256)

/-- Modelled from the spec: the unsigned value of little-endian bytes (`serialize.h` is
missing). -/
def leValue : List Byte → Nat
  | [] => 0
  | b :: bs => b.val + 256 * leValue bs

/-- Modelled from the spec: reading a fixed-width integer (`serialize.h` is missing); the read
fails when fewer than `width` bytes are left. -/
def readLE (width : Nat) (s : List Byte) : Option (Nat × List Byte) :=
  if s.length < width then none else some (leValue (s.take width), s.drop width)

/-- Modelled from the spec: the length prefix of a variable-length field (`WriteCompactSize` of
the missing `serialize.h`): one byte below 253, otherwise a marker byte and 2, 4 or 8
little-endian bytes. -/
def WriteCompactSize (n : Nat) : List Byte :=
  if n < 253 then leBytes 1 n
  else if n ≤ 0xFFFF then 253 :: leBytes 2 n
  else if n ≤ 0xFFFFFFFF then 254 :: leBytes 4 n
  else 255 :: leBytes 8 n

/-- Modelled from the spec: reading a length prefix (`ReadCompactSize` of the missing
`serialize.h`); a length written in a longer form than it needs is refused. The specification
names no upper limit on a length, so none is modelled. -/
def ReadCompactSize (s : List Byte) : Option (Nat × List Byte) :=
  match s with
  | [] => none
  | b :: rest =>
    if b.val < 253 then some (b.val, rest)
    else if b.val = 253 then
      match readLE 2 rest with
      | none => none
      | some (n, rest') => if n < 253 then none else some (n, rest')
    else if b.val = 254 then
      match readLE 4 rest with
      | none => none
      | some (n, rest') => if n < 0x10000 then none else some (n, rest')
    else
      match readLE 8 rest with
      | none => none
      | some (n, rest') => if n < 0x100000000 then none else some (n, rest')

/-- Modelled from the spec: `stream << CharString` (`serialize.h` is missing), the length prefix
followed by the bytes. -/
def writeCharString (v : CharString) : List Byte :=
  WriteCompactSize v.length ++ v

/-- Modelled from the spec: `stream >> CharString` (`serialize.h` is missing). -/
def readCharString (s : List Byte) : Option (CharString × List Byte) :=
  match ReadCompactSize s with
  | none => none
  | some (n, rest) => if rest.length < n then none else some (rest.take n, rest.drop n)

/-- Modelled from the spec: the elements of a `vCharString` on the wire, one after the other
(`serialize.h` is missing). -/
def writeElements : vCharString → List Byte
  | [] => []
  | v :: vs => writeCharString v ++ writeElements vs

/-- Modelled from the spec: reading `n` elements of a `vCharString` (`serialize.h` is
missing). -/
def readElements : Nat → List Byte → Option (vCharString × List Byte)
  | 0, s => some ([], s)
  | n + 1, s =>
    match readCharString s with
    | none => none
    | some (v, rest) =>
      match readElements n rest with
      | none => none
      | some (vs, rest') => some (v :: vs, rest')

/-- Modelled from the spec: `stream << vCharString` (`serialize.h` is missing), the number of
elements as a length prefix followed by each element. -/
def writeVCharString (l : vCharString) : List Byte :=
  WriteCompactSize l.length ++ writeElements l

/-- Modelled from the spec: `stream >> vCharString` (`serialize.h` is missing). -/
def readVCharString (s : List Byte) : Option (vCharString × List Byte) :=
  match ReadCompactSize s with
  | none => none
  | some (n, rest) => readElements n rest

/-- Modelled from the spec: `stream << int` (`serialize.h` is missing), four bytes of the
two's complement value. -/
def writeInt32 (v : Int) : List Byte :=
  leBytes 4 (v % 2 ^ 32).toNat

/-- Modelled from the spec: `stream >> int` (`serialize.h` is missing). -/
def readInt32 (s : List Byte) : Option (Int × List Byte) :=
  match readLE 4 s with
  | none => none
  | some (u, rest) => some (if u < 2 ^ 31 then (u : Int) else (u : Int) - 2 ^ 32, rest)

/-- Modelled from the spec: `stream << uint256` (`uint256.h` is missing), the 32 bytes of the
value, least significant first. -/
def writeUint256 (h : uint256) : List Byte :=
  leBytes 32 h.val

/-- Modelled from the spec: `stream >> uint256` (`uint256.h` is missing). -/
def readUint256 (s : List Byte) : Option (uint256 × List Byte) :=
  match readLE 32 s with
  | none => none
  | some (u, rest) => some (⟨u % 2 ^ 256, Nat.mod_lt _ (by decide)⟩, rest)

/-- Modelled from the spec: one lower-case hexadecimal digit (`uint256.h` is missing). -/
def hexChar (d : Nat) : Char :=
  if d < 10 then Char.ofNat (48 + d) else Char.ofNat (87 + d)

/-- Modelled from the spec: the `k` lowest hexadecimal digits of `n`, most significant first
(`uint256.h` is missing). -/
def hexDigits : Nat → Nat → List Char
  | 0, _ => []
  | k + 1, n => hexDigits k (n / 16) ++ [hexChar (n % 16)]

/-- Modelled from the spec: `uint256::GetHex()` (`uint256.h` is missing), the digest "rendered
as a hex string": its 64 hexadecimal digits. -/
def GetHex (h : uint256) : String :=
  String.mk (hexDigits 64 h.val)

/-- Modelled from the spec: `vchFromString` (`bdap/utils.h` is missing), the bytes of a
string. -/
def vchFromString (s : String) : List Byte :=
  s.data.map fun ch => ⟨ch.toNat % 256, Nat.mod_lt _ (by decide)⟩

/-- Modelled from the spec: `vchFromValue` (`bdap/utils.h` is missing), the bytes of the string
a value holds. -/
def vchFromValue (s : String) : List Byte :=
  vchFromString s

/-! ## The certificate codec -/

/-- The ranges of the C++ types of a record's members: `int nVersion`, a 16-bit `MonthsValid`,
a 64-bit `SerialNumber`, `unsigned int` heights, and a `size_t` length for every vector. -/
def CCertificate.InRange (c : CCertificate) : Prop :=
  (-(2 ^ 31) ≤ c.nVersion ∧ c.nVersion < 2 ^ 31 ∧ c.MonthsValid < 2 ^ 16 ∧
    c.SerialNumber < 2 ^ 64 ∧ c.nHeightRequest < 2 ^ 32 ∧ c.nHeightApprove < 2 ^ 32) ∧
  (c.FingerPrint.length < 2 ^ 64 ∧ c.SignatureAlgorithm.length < 2 ^ 64 ∧
    c.SignatureHashAlgorithm.length < 2 ^ 64 ∧ c.Subject.length < 2 ^ 64 ∧
    c.SubjectSignature.length < 2 ^ 64 ∧ c.Issuer.length < 2 ^ 64 ∧
    c.PublicKey.length < 2 ^ 64 ∧ c.SignatureValue.length < 2 ^ 64) ∧
  ((c.KeyUsage.length < 2 ^ 64 ∧ ∀ v ∈ c.KeyUsage, v.length < 2 ^ 64) ∧
   (c.ExtendedKeyUsage.length < 2 ^ 64 ∧ ∀ v ∈ c.ExtendedKeyUsage, v.length < 2 ^ 64) ∧
   (c.AuthorityInformationAccess.length < 2 ^ 64 ∧
      ∀ v ∈ c.AuthorityInformationAccess, v.length < 2 ^ 64) ∧
   (c.SubjectAlternativeName.length < 2 ^ 64 ∧
      ∀ v ∈ c.SubjectAlternativeName, v.length < 2 ^ 64) ∧
   (c.Policies.length < 2 ^ 64 ∧ ∀ v ∈ c.Policies, v.length < 2 ^ 64) ∧
   (c.CRLDistributionPoints.length < 2 ^ 64 ∧
      ∀ v ∈ c.CRLDistributionPoints, v.length < 2 ^ 64) ∧
   (c.SCTList.length < 2 ^ 64 ∧ ∀ v ∈ c.SCTList, v.length < 2 ^ 64))

instance (c : CCertificate) : Decidable c.InRange := by
  unfold CCertificate.InRange
  infer_instance

/-- Modelled from the spec: `stream << certificate`, the `SerializationOp` of the class
declaration (`bdap/certificate.h` is missing): "encoding of all fields in the fixed order", the
members in the order §3 lists them. -/
def SerializationOpWrite (c : CCertificate) : List Byte :=
  writeInt32 c.nVersion ++ leBytes 2 c.MonthsValid ++
  writeCharString c.FingerPrint ++ writeCharString c.SignatureAlgorithm ++
  writeCharString c.SignatureHashAlgorithm ++ writeCharString c.Subject ++
  writeCharString c.SubjectSignature ++ writeCharString c.Issuer ++
  writeCharString c.PublicKey ++ writeCharString c.SignatureValue ++
  leBytes 8 c.SerialNumber ++
  writeVCharString c.KeyUsage ++ writeVCharString c.ExtendedKeyUsage ++
  writeVCharString c.AuthorityInformationAccess ++
  writeVCharString c.SubjectAlternativeName ++ writeVCharString c.Policies ++
  writeVCharString c.CRLDistributionPoints ++ writeVCharString c.SCTList ++
  writeUint256 c.txHashRequest ++ leBytes 4 c.nHeightRequest ++
  writeUint256 c.txHashApprove ++ leBytes 4 c.nHeightApprove

/-- Modelled from the spec: one `READWRITE(member)` of the `SerializationOp` when reading
(`bdap/certificate.h` is missing): the member is read from what is left of the stream and
assigned; `none` when the read throws. -/
def readField {α : Type} (read : List Byte → Option (α × List Byte))
    (assign : CCertificate → α → CCertificate) (st : CCertificate × List Byte) :
    Option (CCertificate × List Byte) :=
  match read st.2 with
  | none => none
  | some (x, rest) => some (assign st.1 x, rest)

/-- Modelled from the spec: `stream >> certificate`, the `SerializationOp` of the class
declaration (`bdap/certificate.h` is missing), reading the members of `*this` in the order they
are written; `none` when a read throws. The second component is what is left of the stream. -/
def SerializationOpRead (self : CCertificate) (s : List Byte) :
    Option (CCertificate × List Byte) :=
  (some (self, s))
    |>.bind (readField readInt32 fun c x => { c with nVersion := x })
    |>.bind (readField (readLE 2) fun c x => { c with MonthsValid := x })
    |>.bind (readField readCharString fun c x => { c with FingerPrint := x })
    |>.bind (readField readCharString fun c x => { c with SignatureAlgorithm := x })
    |>.bind (readField readCharString fun c x => { c with SignatureHashAlgorithm := x })
    |>.bind (readField readCharString fun c x => { c with Subject := x })
    |>.bind (readField readCharString fun c x => { c with SubjectSignature := x })
    |>.bind (readField readCharString fun c x => { c with Issuer := x })
    |>.bind (readField readCharString fun c x => { c with PublicKey := x })
    |>.bind (readField readCharString fun c x => { c with SignatureValue := x })
    |>.bind (readField (readLE 8) fun c x => { c with SerialNumber := x })
    |>.bind (readField readVCharString fun c x => { c with KeyUsage := x })
    |>.bind (readField readVCharString fun c x => { c with ExtendedKeyUsage := x })
    |>.bind (readField readVCharString fun c x => { c with AuthorityInformationAccess := x })
    |>.bind (readField readVCharString fun c x => { c with SubjectAlternativeName := x })
    |>.bind (readField readVCharString fun c x => { c with Policies := x })
    |>.bind (readField readVCharString fun c x => { c with CRLDistributionPoints := x })
    |>.bind (readField readVCharString fun c x => { c with SCTList := x })
    |>.bind (readField readUint256 fun c x => { c with txHashRequest := x })
    |>.bind (readField (readLE 4) fun c x => { c with nHeightRequest := x })
    |>.bind (readField readUint256 fun c x => { c with txHashApprove := x })
    |>.bind (readField (readLE 4) fun c x => { c with nHeightApprove := x })

/-- Modelled from the spec: `CCertificate::SetNull()` (`bdap/certificate.h` is missing),
"resetting all fields to empty": every byte string and list empty, every number zero. -/
def SetNull (_self : CCertificate) : CCertificate :=
  { nVersion := 0, MonthsValid := 0, FingerPrint := [], SignatureAlgorithm := [],
    SignatureHashAlgorithm := [], Subject := [], SubjectSignature := [], Issuer := [],
    PublicKey := [], SignatureValue := [], SerialNumber := 0, KeyUsage := [],
    ExtendedKeyUsage := [], AuthorityInformationAccess := [], SubjectAlternativeName := [],
    Policies := [], CRLDistributionPoints := [], SCTList := [],
    txHashRequest := 0, nHeightRequest := 0, txHashApprove := 0, nHeightApprove := 0 }

/-- `CCertificate::Serialize(std::vector<unsigned char>& vchData)`: the bytes of a fresh stream
after `dsEntryCertificate << *this`. -/
def Serialize (self : CCertificate) : List Byte :=
  SerializationOpWrite self

/-- `CCertificate::GetHash()`: the digest of the stream holding `*this`. -/
def GetHash (Hash : List Byte → uint256) (self : CCertificate) : uint256 :=
  Hash (SerializationOpWrite self)

/-- `CCertificate::GetSubjectHash()`. -/
def GetSubjectHash (Hash : List Byte → uint256) (self : CCertificate) : uint256 :=
  Hash (writeCharString self.SignatureAlgorithm ++ writeCharString self.SignatureHashAlgorithm ++
    writeCharString self.Subject ++ leBytes 8 self.SerialNumber ++
    writeVCharString self.KeyUsage ++ writeVCharString self.ExtendedKeyUsage ++
    writeVCharString self.AuthorityInformationAccess ++
    writeVCharString self.SubjectAlternativeName ++ writeVCharString self.Policies ++
    writeVCharString self.CRLDistributionPoints ++ writeVCharString self.SCTList)

/-- `CCertificate::GetIssuerHash()`. -/
def GetIssuerHash (Hash : List Byte → uint256) (self : CCertificate) : uint256 :=
  Hash (writeCharString self.SignatureAlgorithm ++ writeCharString self.SignatureHashAlgorithm ++
    leBytes 2 self.MonthsValid ++ writeCharString self.Subject ++
    writeCharString self.SubjectSignature ++ writeCharString self.Issuer ++
    writeCharString self.PublicKey ++ leBytes 8 self.SerialNumber ++
    writeVCharString self.KeyUsage ++ writeVCharString self.ExtendedKeyUsage ++
    writeVCharString self.AuthorityInformationAccess ++
    writeVCharString self.SubjectAlternativeName ++ writeVCharString self.Policies ++
    writeVCharString self.CRLDistributionPoints ++ writeVCharString self.SCTList)

/-- `CCertificate::UnserializeFromData(vchData, vchHash)`: the updated record and the returned
flag. The `try` block reads the record from the stream, serializes it again, and compares the
bytes of the hex string of that digest with `vchHash`; a mismatch and a throwing read both end
in `SetNull()` and `false`. -/
def UnserializeFromData (Hash : List Byte → uint256) (self : CCertificate)
    (vchData vchHash : List Byte) : Bool × CCertificate :=
  match SerializationOpRead self vchData with
  | none => (false, SetNull self)
  | some (self', _) =>
    let vchEntryLinkData := Serialize self'
    let calculatedHash := Hash vchEntryLinkData
    let vchRandEntryLink := vchFromValue (GetHex calculatedHash)
    if vchRandEntryLink ≠ vchHash then (false, SetNull self') else (true, self')

/-- The null state in the words of the specification, "all fields empty": every byte string
and every list is empty and every number is zero. -/
def CCertificate.IsNull (c : CCertificate) : Prop :=
  (c.nVersion = 0 ∧ c.MonthsValid = 0 ∧ c.SerialNumber = 0) ∧
  (c.FingerPrint = [] ∧ c.SignatureAlgorithm = [] ∧ c.SignatureHashAlgorithm = [] ∧
    c.Subject = [] ∧ c.SubjectSignature = [] ∧ c.Issuer = [] ∧ c.PublicKey = [] ∧
    c.SignatureValue = []) ∧
  (c.KeyUsage = [] ∧ c.ExtendedKeyUsage = [] ∧ c.AuthorityInformationAccess = [] ∧
    c.SubjectAlternativeName = [] ∧ c.Policies = [] ∧ c.CRLDistributionPoints = [] ∧
    c.SCTList = []) ∧
  (c.txHashRequest = 0 ∧ c.nHeightRequest = 0 ∧ c.txHashApprove = 0 ∧ c.nHeightApprove = 0)

/-- The fields the specification lists for the subject hash (§3): two records agree on
signatureAlgorithm, signatureHashAlgorithm, subject, serialNumber and the extension lists. -/
def SubjectFieldsAgree (a b : CCertificate) : Prop :=
  a.SignatureAlgorithm = b.SignatureAlgorithm ∧
  a.SignatureHashAlgorithm = b.SignatureHashAlgorithm ∧
  a.Subject = b.Subject ∧ a.SerialNumber = b.SerialNumber ∧
  a.KeyUsage = b.KeyUsage ∧ a.ExtendedKeyUsage = b.ExtendedKeyUsage ∧
  a.AuthorityInformationAccess = b.AuthorityInformationAccess ∧
  a.SubjectAlternativeName = b.SubjectAlternativeName ∧ a.Policies = b.Policies ∧
  a.CRLDistributionPoints = b.CRLDistributionPoints ∧ a.SCTList = b.SCTList

/-! ## Hash inputs -/

/-- The stream `dsCertificate` of `GetSubjectHash` at the moment it is hashed. -/
def SubjectHashStream (self : CCertificate) : List Byte :=
  writeCharString self.SignatureAlgorithm ++ writeCharString self.SignatureHashAlgorithm ++
    writeCharString self.Subject ++ leBytes 8 self.SerialNumber ++
    writeVCharString self.KeyUsage ++ writeVCharString self.ExtendedKeyUsage ++
    writeVCharString self.AuthorityInformationAccess ++
    writeVCharString self.SubjectAlternativeName ++ writeVCharString self.Policies ++
    writeVCharString self.CRLDistributionPoints ++ writeVCharString self.SCTList

/-- The stream `dsCertificate` of `GetIssuerHash` at the moment it is hashed. -/
def IssuerHashStream (self : CCertificate) : List Byte :=
  writeCharString self.SignatureAlgorithm ++ writeCharString self.SignatureHashAlgorithm ++
    leBytes 2 self.MonthsValid ++ writeCharString self.Subject ++
    writeCharString self.SubjectSignature ++ writeCharString self.Issuer ++
    writeCharString self.PublicKey ++ leBytes 8 self.SerialNumber ++
    writeVCharString self.KeyUsage ++ writeVCharString self.ExtendedKeyUsage ++
    writeVCharString self.AuthorityInformationAccess ++
    writeVCharString self.SubjectAlternativeName ++ writeVCharString self.Policies ++
    writeVCharString self.CRLDistributionPoints ++ writeVCharString self.SCTList

/-- The digest function has no collision among the listed inputs: it is injective on them. -/
def CollisionFreeOn (Hash : List Byte → uint256) (inputs : List (List Byte)) : Prop :=
  ∀ a ∈ inputs, ∀ b ∈ inputs, Hash a = Hash b → a = b

instance (Hash : List Byte → uint256) (inputs : List (List Byte)) :
    Decidable (CollisionFreeOn Hash inputs) := by
  unfold CollisionFreeOn
  infer_instance

/-! ## Signatures -/

/-- A signature as the ed25519 functions exchange it: the 64 bytes of the buffer
`std::vector<unsigned char> sig(64)`. -/
abbrev Signature := { sig : List Byte // sig.length = 64 }

/-- The two functions of `libtorrent/ed25519.hpp` that the record calls, an external library and
so a parameter. The message is passed with its length; the keys are passed as the caller gave
them, their well-formedness being the caller's responsibility (§4.3). -/
structure Ed25519 where
  ed25519_sign : (message public_key private_key : List Byte) → Signature
  ed25519_verify : (signature : Signature) → (message public_key : List Byte) → Bool

/-- Modelled from the spec: `uint256::ToString()` (`uint256.h` is missing), the "hex-string
representation" of the digest that §4.3 names as the signed message: the same string as
`GetHex`. -/
def uint256.ToString (h : uint256) : String :=
  GetHex h

/-- The 64 bytes `ed25519_verify` reads through the pointer `&v[0]` of a stored signature. The
source does not look at `v.size()`: with fewer than 64 bytes the read runs past the end of the
vector and the call has no defined result, which is `none`. -/
def signatureAt (v : List Byte) : Option Signature :=
  if h : 64 ≤ v.length then some ⟨v.take 64, by simp [h]⟩ else none

/-- `CCertificate::SignSubject(vchPubKey, vchPrivKey)`: the returned flag and the updated
record. -/
def SignSubject (ed : Ed25519) (Hash : List Byte → uint256) (self : CCertificate)
    (vchPubKey vchPrivKey : List Byte) : Bool × CCertificate :=
  let msg := vchFromString (uint256.ToString (GetSubjectHash Hash self))
  let sig := ed.ed25519_sign msg vchPubKey vchPrivKey
  (true, { self with SubjectSignature := sig.val })

/-- `CCertificate::SignIssuer(vchPubKey, vchPrivKey)`: the returned flag and the updated
record. -/
def SignIssuer (ed : Ed25519) (Hash : List Byte → uint256) (self : CCertificate)
    (vchPubKey vchPrivKey : List Byte) : Bool × CCertificate :=
  let msg := vchFromString (uint256.ToString (GetIssuerHash Hash self))
  let sig := ed.ed25519_sign msg vchPubKey vchPrivKey
  (true, { self with SignatureValue := sig.val })

/-- `CCertificate::CheckSubjectSignature(vchPubKey)`: `some` of the returned flag, or `none`
when the signature pointer does not reach 64 bytes (see `signatureAt`). -/
def CheckSubjectSignature (ed : Ed25519) (Hash : List Byte → uint256) (self : CCertificate)
    (vchPubKey : List Byte) : Option Bool :=
  let msg := vchFromString (uint256.ToString (GetSubjectHash Hash self))
  match signatureAt self.SubjectSignature with
  | none => none
  | some sig => if !ed.ed25519_verify sig msg vchPubKey then some false else some true

/-- `CCertificate::CheckIssuerSignature(vchPubKey)`: `some` of the returned flag, or `none`
when the signature pointer does not reach 64 bytes (see `signatureAt`). -/
def CheckIssuerSignature (ed : Ed25519) (Hash : List Byte → uint256) (self : CCertificate)
    (vchPubKey : List Byte) : Option Bool :=
  let msg := vchFromString (uint256.ToString (GetIssuerHash Hash self))
  match signatureAt self.SignatureValue with
  | none => none
  | some sig => if !ed.ed25519_verify sig msg vchPubKey then some false else some true

/-- An ASCII character `0`-`9` or `a`-`f`, as a byte. -/
def IsLowerHexByte (b : Byte) : Prop :=
  (48 ≤ b.val ∧ b.val ≤ 57) ∨ (97 ≤ b.val ∧ b.val ≤ 102)

instance (b : Byte) : Decidable (IsLowerHexByte b) := by
  unfold IsLowerHexByte
  infer_instance

/-! ## Ledger linkage -/

/-- What `UnserializeFromTx` asks of the ledger layer, for a type `Tx` of transactions. These
functions are declared outside the sources (`GetBDAPData`, `GetBDAPOpScript` and
`GetBDAPOpTypeString` of the BDAP utilities, `GetHash` of the transaction), so they are
parameters. A function that returns `false` is `none`; otherwise it gives its output arguments:
payload, reference hash and output index for `GetBDAPData`, the two opcodes for
`GetBDAPOpScript` (the script and its arguments are not used). -/
structure Ledger (Tx : Type) where
  GetBDAPData : Tx → Option (List Byte × List Byte × Int)
  GetBDAPOpScript : Tx → Option (Int × Int)
  GetBDAPOpTypeString : Int → Int → String
  GetHash : Tx → uint256

/-- `CCertificate::UnserializeFromTx(tx, height)`: the returned flag and the updated record. -/
def UnserializeFromTx {Tx : Type} (ledger : Ledger Tx) (Hash : List Byte → uint256)
    (self : CCertificate) (tx : Tx) (height : Nat) : Bool × CCertificate :=
  match ledger.GetBDAPData tx with
  | none => (false, SetNull self)
  | some (vchData, vchHash, _nOut) =>
    let decoded := UnserializeFromData Hash self vchData vchHash
    if !decoded.1 then (false, decoded.2)
    else
      match ledger.GetBDAPOpScript tx with
      | none => (true, decoded.2)
      | some (op1, op2) =>
        let strOpType := ledger.GetBDAPOpTypeString op1 op2
        if strOpType = "bdap_new_certificate" then
          (true, { decoded.2 with txHashRequest := ledger.GetHash tx, nHeightRequest := height })
        else if strOpType = "bdap_approve_certificate" then
          (true, { decoded.2 with txHashApprove := ledger.GetHash tx, nHeightApprove := height })
        else
          (true, decoded.2)

/-- Modelled from the spec: `CCertificate::IsApproved()` (`bdap/certificate.h` is missing):
"`IsApproved` holds iff `heightApprove` is non-zero". -/
def IsApproved (self : CCertificate) : Bool :=
  self.nHeightApprove != 0

/-! ## Presentation -/

/-- A value pushed into the JSON object: a string, a number, or (for `key_usage`) an object
whose values are strings. -/
inductive UniValue where
  | str (s : String)
  | num (n : Int)
  | obj (fields : List (String × String))
  deriving DecidableEq

/-- The active chain as `BuildCertificateJson` reads it, an external collaborator and so a
parameter: `chainActive.Height()` (an `int`, negative for an empty chain) and, for a height, the
block time of `chainActive[height]`, `none` when that is a null pointer. -/
structure Chain where
  Height : Int
  blockTimeAt : Nat → Option Int

/-- The rendering helpers `BuildCertificateJson` calls, all declared outside the sources and so
parameters: `stringFromVch`, `EncodeBase64` and `ToHex`, the record's `GetFingerPrint()` and the
string of its `GetCertificateKeyID()`, and `AddMonthsToBlockTime`. -/
structure Rendering where
  stringFromVch : List Byte → String
  EncodeBase64 : List Byte → String
  ToHex : List Byte → String
  GetFingerPrint : CCertificate → String
  GetCertificateKeyID : CCertificate → String
  AddMonthsToBlockTime : Int → Nat → Int

/-- The loop of `BuildCertificateJson` over `KeyUsage`: the counter is incremented and the pair
`"key_usage" + std::to_string(counter)` is pushed. -/
def keyUsagePairs (R : Rendering) (counter : Nat) : vCharString → List (String × String)
  | [] => []
  | vchKeyUsage :: rest =>
    ("key_usage" ++ toString (counter + 1), R.stringFromVch vchKeyUsage)
      :: keyUsagePairs R (counter + 1) rest

/-- The time lookup `BuildCertificateJson` makes twice, for the request and for the approve
height: the time stays 0 unless `(unsigned int)chainActive.Height() >= nHeight` and
`chainActive[nHeight]` is not null, in which case it is that block's time. -/
def blockTimeOrZero (chain : Chain) (nHeight : Nat) : Int :=
  if (chain.Height % 2 ^ 32).toNat ≥ nHeight then
    match chain.blockTimeAt nHeight with
    | some t => t
    | none => 0
  else 0

/-- `BuildCertificateJson(certificate, oCertificate)`: the returned flag and the object after
the pushes, as its list of key/value pairs in push order. -/
def BuildCertificateJson (R : Rendering) (chain : Chain) (certificate : CCertificate)
    (oCertificate : List (String × UniValue)) : Bool × List (String × UniValue) :=
  let oKeyUsages := keyUsagePairs R 0 certificate.KeyUsage
  let nTime := blockTimeOrZero chain certificate.nHeightRequest
  let pushed : List (String × UniValue) :=
    [ ("version", .str (toString certificate.nVersion)),
      ("signature_algorithm", .str (R.stringFromVch certificate.SignatureAlgorithm)),
      ("signature_hash_algorithm", .str (R.stringFromVch certificate.SignatureHashAlgorithm)),
      ("fingerprint", .str (R.GetFingerPrint certificate)),
      ("months_valid", .str (toString certificate.MonthsValid)),
      ("subject", .str (R.stringFromVch certificate.Subject)),
      ("subject_signature", .str (R.EncodeBase64 certificate.SubjectSignature)),
      ("issuer", .str (R.stringFromVch certificate.Issuer)),
      ("public_key", .str (R.ToHex certificate.PublicKey)),
      ("signature_value", .str (R.EncodeBase64 certificate.SignatureValue)),
      ("approved", .str (if IsApproved certificate then "True" else "False")),
      ("serial_number", .str (toString certificate.SerialNumber)),
      ("certificate_keyid", .str (R.GetCertificateKeyID certificate)),
      ("key_usage", .obj oKeyUsages),
      ("txid_request", .str (GetHex certificate.txHashRequest)),
      ("txid_approve", .str (GetHex certificate.txHashApprove)),
      ("request_time", .num nTime),
      ("request_height", .str (toString certificate.nHeightRequest)) ]
  if certificate.nHeightApprove ≠ 0 then
    let nApproveTime := blockTimeOrZero chain certificate.nHeightApprove
    (true, oCertificate ++ pushed ++
      [ ("valid_from", .num nApproveTime),
        ("valid_until", .num (R.AddMonthsToBlockTime nApproveTime certificate.MonthsValid)),
        ("approve_height", .str (toString certificate.nHeightApprove)) ])
  else
    (true, oCertificate ++ pushed)

/-- The approve time in the words of the specification: the block time at the approve height,
or 0 when that height is above the chain tip or has no block. -/
def approveTime (chain : Chain) (nHeightApprove : Nat) : Int :=
  if chain.Height < (nHeightApprove : Int) then 0
  else (chain.blockTimeAt nHeightApprove).getD 0

/-- What holds of every chain: the height is an `int`, and there is no block above the tip. -/
def Chain.WellFormed (chain : Chain) : Prop :=
  (-(2 ^ 31) ≤ chain.Height ∧ chain.Height < 2 ^ 31) ∧
  ∀ h : Nat, chain.Height < (h : Int) → chain.blockTimeAt h = none

/-- A small stand-in for the digest function, to evaluate the definitions on examples. -/
def exampleHash (data : List Byte) : uint256 :=
  ⟨(data.foldl (fun acc b => acc * 257 + b.val + 1) 7) % 2 ^ 256, Nat.mod_lt _ (by decide)⟩

/-- A set of limits to evaluate the validator on examples. -/
def exampleLimits : Limits :=
  { MAX_ALGORITHM_TYPE_LENGTH := 4, MAX_CERTIFICATE_FINGERPRINT := 4,
    MAX_OBJECT_FULL_PATH_LENGTH := 3, MAX_CERTIFICATE_SIGNATURE_LENGTH := 2,
    MAX_CERTIFICATE_KEY_LENGTH := 2, MAX_CERTIFICATE_EXTENSION_RECORDS := 2,
    MAX_CERTIFICATE_EXTENSION_LENGTH := 1 }

/-- A record that passes `ValidateValues` under `exampleLimits`. -/
def exampleCertificate : CCertificate :=
  { nVersion := 1, MonthsValid := 12, FingerPrint := [1, 2], SignatureAlgorithm := [101],
    SignatureHashAlgorithm := [115], Subject := [97, 108], SubjectSignature := [9, 8],
    Issuer := [], PublicKey := [7], SignatureValue := [], SerialNumber := 300,
    KeyUsage := [[1], []], ExtendedKeyUsage := [], AuthorityInformationAccess := [],
    SubjectAlternativeName := [[5]], Policies := [], CRLDistributionPoints := [], SCTList := [],
    txHashRequest := 0, nHeightRequest := 100, txHashApprove := 0, nHeightApprove := 0 }

/-- A record that violates three checks under `exampleLimits`: the fingerprint is too long,
the issuer path is too long and `KeyUsage` has too many records. -/
def exampleInvalidCertificate : CCertificate :=
  { exampleCertificate with
    FingerPrint := [1, 2, 3, 4, 5], Issuer := [1, 2, 3, 4], KeyUsage := [[], [], []] }

/-- A stand-in for the signature scheme, to evaluate the definitions on examples: the
signature of a message under a key is the message shifted by the sum of the key bytes. -/
def exampleTag (message key : List Byte) : List Byte :=
  (List.range 64).map fun i => message.getD i 0 + key.foldl (fun acc b => acc + b) 0 + 1

/-- A stand-in for the signature scheme in which a key pair is well-formed when the private key
equals the public key. -/
def exampleEd25519 : Ed25519 :=
  { ed25519_sign := fun message _public_key private_key =>
      ⟨exampleTag message private_key, by simp [exampleTag]⟩
    ed25519_verify := fun signature message public_key =>
      decide (signature.val = exampleTag message public_key) }

/-- A stand-in for the ledger whose transactions are numbers: transaction 0 carries no payload,
every other one carries the serialized `exampleCertificate` with its hash; transaction 1 is a
"new certificate" operation, 2 an "approve certificate" operation, 3 has no operation script and
any other one is an operation of another type. -/
def exampleLedger : Ledger Nat :=
  { GetBDAPData := fun tx =>
      if tx = 0 then none
      else some (Serialize exampleCertificate,
        vchFromValue (GetHex (GetHash exampleHash exampleCertificate)), 0)
    GetBDAPOpScript := fun tx => if tx = 3 then none else some ((tx : Int), 0)
    GetBDAPOpTypeString := fun op1 _op2 =>
      if op1 = 1 then "bdap_new_certificate"
      else if op1 = 2 then "bdap_approve_certificate"
      else "bdap_new_account"
    GetHash := fun tx => ⟨tx % 2 ^ 256, Nat.mod_lt _ (by decide)⟩ }

/-- The example ledger carrying the serialized record `c` instead of `exampleCertificate`. -/
def exampleLedgerCarrying (c : CCertificate) : Ledger Nat :=
  { exampleLedger with
    GetBDAPData := fun tx =>
      if tx = 0 then none
      else some (Serialize c, vchFromValue (GetHex (GetHash exampleHash c)), 0) }

/-- A record that fails `ValidateValues` (its subject is empty) and whose subject signature,
64 zero bytes, does not verify under the example scheme. -/
def exampleUnvalidatedCertificate : CCertificate :=
  { exampleCertificate with
    Subject := [], SubjectSignature := List.replicate 64 0, nHeightRequest := 0 }

/-- A chain of height 200 whose block at height `h` has time `1000 + 10 * h`. -/
def exampleChain : Chain :=
  { Height := 200
    blockTimeAt := fun h => if h ≤ 200 then some (1000 + 10 * (h : Int)) else none }

/-- Stand-ins for the rendering helpers: bytes are rendered as the characters of their codes,
and a month is 30 days of 86400 seconds. -/
def exampleRendering : Rendering :=
  { stringFromVch := fun v => String.mk (v.map fun b => Char.ofNat b.val)
    EncodeBase64 := fun v => String.mk (v.map fun b => Char.ofNat b.val)
    ToHex := fun v => String.mk (v.map fun b => Char.ofNat b.val)
    GetFingerPrint := fun c => String.mk (c.FingerPrint.map fun b => Char.ofNat b.val)
    GetCertificateKeyID := fun _ => "keyid"
    AddMonthsToBlockTime := fun t months => t + 2592000 * (months : Int) }

/-! # Theorems -/

set_option maxRecDepth 100000

/-! ## Field validator: auxiliary lemmas -/

theorem ValidateValues_eq_firstViolated (L : Limits) (c : CCertificate) (e : String) :
    ValidateValues L c e = firstViolated (checks L c) e := rfl


theorem tooLongElement_eq_false_iff (maxLen : Nat) (l : vCharString) :
    tooLongElement maxLen l = false ↔ ∀ v ∈ l, v.length ≤ maxLen := by
  induction l with
  | nil => simp [tooLongElement]
  | cons v vs ih =>
    by_cases h : v.length > maxLen
    · simp [tooLongElement, h]
    · simp only [tooLongElement, h, if_false, ih, List.mem_cons, forall_eq_or_imp]
      constructor
      · intro h2; exact ⟨by omega, h2⟩
      · intro h2; exact h2.2

theorem firstViolated_fst_eq_true_iff (l : List Check) (e : String) :
    (firstViolated l e).1 = true ↔ ∀ ch ∈ l, ¬ ch.violated := by
  induction l with
  | nil => simp [firstViolated]
  | cons ch rest ih =>
    have := ch.dec
    by_cases h : ch.violated
    · simp [firstViolated, h]
    · simp [firstViolated, h, ih]

theorem ValidateValues_fst_eq_true_iff (L : Limits) (c : CCertificate) (e : String) :
    (ValidateValues L c e).1 = true ↔ WithinLimits L c := by
  rw [ValidateValues_eq_firstViolated, firstViolated_fst_eq_true_iff]
  unfold WithinLimits
  simp only [← tooLongElement_eq_false_iff, checks, List.mem_cons, forall_eq_or_imp,
    List.not_mem_nil, false_imp_iff, implies_true, and_true, Nat.not_lt, gt_iff_lt, ne_eq,
    ← List.length_eq_zero, Bool.not_eq_true, and_assoc]


theorem firstViolated_eq_of_first (l : List Check) (e : String) (i : Nat) (hi : i < l.length)
    (hviol : (l.get ⟨i, hi⟩).violated)
    (hfirst : ∀ j (hj : j < l.length), j < i → ¬ (l.get ⟨j, hj⟩).violated) :
    firstViolated l e = (false, (l.get ⟨i, hi⟩).message) := by
  induction l generalizing i with
  | nil => simp at hi
  | cons ch rest ih =>
    have := ch.dec
    cases i with
    | zero =>
      simp only [List.get_eq_getElem, List.getElem_cons_zero] at hviol
      simp [firstViolated, hviol]
    | succ k =>
      have h0 : ¬ ch.violated := hfirst 0 (by simp) (by omega)
      simp only [firstViolated, h0, if_false]
      have hk : k < rest.length := by simpa using hi
      have := ih k hk (by simpa using hviol) (fun j hj hjk => by
        have := hfirst (j + 1) (by simp; omega) (by omega)
        simpa using this)
      simpa using this

theorem take_data_append (n : Nat) (s t : String) (h : n ≤ s.length) :
    (s ++ t).data.take n = s.data.take n := by
  rw [String.data_append, List.take_append_of_le_length]
  exact h

theorem checks_messages_nodup (L : Limits) (c : CCertificate) :
    ((checks L c).map Check.message).Nodup := by
  apply List.Nodup.of_map (fun s : String => s.data.take 36)
  simp only [checks, List.map_cons, List.map_nil, String.append_assoc]
  simp (disch := decide) only [take_data_append]
  decide


theorem firstViolated_eq_true_of_none (l : List Check) (e : String)
    (h : ∀ ch ∈ l, ¬ ch.violated) : firstViolated l e = (true, e) := by
  induction l with
  | nil => rfl
  | cons ch rest ih =>
    have := ch.dec
    have h0 : ¬ ch.violated := h ch (by simp)
    simp only [firstViolated, h0, if_false]
    exact ih (fun ch' hm => h ch' (by simp [hm]))

theorem ValidateValues_eq_true_of_withinLimits (L : Limits) (c : CCertificate) (e : String)
    (h : WithinLimits L c) : ValidateValues L c e = (true, e) := by
  rw [ValidateValues_eq_firstViolated]
  apply firstViolated_eq_true_of_none
  have := (ValidateValues_fst_eq_true_iff L c e).mpr h
  rw [ValidateValues_eq_firstViolated] at this
  exact (firstViolated_fst_eq_true_iff _ _).mp this

theorem tooLongElement_eq_true_of_mem (maxLen : Nat) (l : vCharString) (v : CharString)
    (hv : v ∈ l) (hlen : maxLen < v.length) : tooLongElement maxLen l = true := by
  cases h : tooLongElement maxLen l with
  | true => rfl
  | false =>
    have := (tooLongElement_eq_false_iff maxLen l).mp h v hv
    omega

/-! ## Stream encoding: reading back what was written, and only that -/

theorem leBytes_length (width n : Nat) : (leBytes width n).length = width := by
  induction width generalizing n with
  | zero => rfl
  | succ w ih => simp [leBytes, ih]

theorem leValue_lt (s : List Byte) : leValue s < 256 ^ s.length := by
  induction s with
  | nil => simp [leValue]
  | cons b bs ih =>
    simp only [leValue, List.length_cons, pow_succ]
    have := b.isLt
    omega

theorem leValue_leBytes (width n : Nat) (h : n < 256 ^ width) :
    leValue (leBytes width n) = n := by
  induction width generalizing n with
  | zero => simp at h; simp [leBytes, leValue, h]
  | succ w ih =>
    have h2 : n / 256 < 256 ^ w := by
      rw [pow_succ] at h
      exact Nat.div_lt_of_lt_mul (by omega)
    simp only [leBytes, leValue, ih _ h2]
    omega

theorem leBytes_leValue (s : List Byte) : leBytes s.length (leValue s) = s := by
  induction s with
  | nil => rfl
  | cons b bs ih =>
    have hb := b.isLt
    have h1 : (b.val + 256 * leValue bs) % 256 = b.val := by omega
    have h2 : (b.val + 256 * leValue bs) / 256 = leValue bs := by omega
    simp only [List.length_cons, leBytes, leValue, h1, h2, ih]

theorem readLE_leBytes_append (width n : Nat) (rest : List Byte) (h : n < 256 ^ width) :
    readLE width (leBytes width n ++ rest) = some (n, rest) := by
  have hl := leBytes_length width n
  have h1 : ¬ (leBytes width n ++ rest).length < width := by simp [hl]
  have h2 : (leBytes width n ++ rest).take width = leBytes width n := by
    rw [List.take_append_of_le_length (by omega), List.take_of_length_le (by omega)]
  have h3 : (leBytes width n ++ rest).drop width = rest := by
    have := List.drop_left (leBytes width n) rest
    rwa [hl] at this
  simp only [readLE, h1, if_false, h2, h3, leValue_leBytes width n h]

theorem readLE_eq_some (width : Nat) (s : List Byte) (n : Nat) (rest : List Byte)
    (h : readLE width s = some (n, rest)) : s = leBytes width n ++ rest ∧ n < 256 ^ width := by
  unfold readLE at h
  split at h
  · cases h
  · rename_i hlen
    simp only [Option.some.injEq, Prod.mk.injEq] at h
    obtain ⟨hn, hrest⟩ := h
    have hl : (s.take width).length = width := by simp; omega
    have h1 := leBytes_leValue (s.take width)
    have h2 := leValue_lt (s.take width)
    rw [hl, hn] at h1 h2
    refine ⟨?_, h2⟩
    rw [h1, ← hrest, List.take_append_drop]

theorem ReadCompactSize_WriteCompactSize (n : Nat) (rest : List Byte) (h : n < 2 ^ 64) :
    ReadCompactSize (WriteCompactSize n ++ rest) = some (n, rest) := by
  have e253 : ((253 : Byte) : Nat) = 253 := rfl
  have e254 : ((254 : Byte) : Nat) = 254 := rfl
  have e255 : ((255 : Byte) : Nat) = 255 := rfl
  unfold WriteCompactSize
  split_ifs with h1 h2 h3
  · have : n % 256 = n := by omega
    simp [leBytes, ReadCompactSize, this, h1]
  · simp only [List.cons_append, ReadCompactSize]
    rw [readLE_leBytes_append 2 n rest (by norm_num; omega)]
    have : ¬ n < 253 := h1
    simp [this, e253]
  · simp only [List.cons_append, ReadCompactSize]
    rw [readLE_leBytes_append 4 n rest (by norm_num; omega)]
    have : ¬ n < 65536 := by omega
    simp [this, e254]
  · simp only [List.cons_append, ReadCompactSize]
    rw [readLE_leBytes_append 8 n rest (by norm_num; omega)]
    have : ¬ n < 4294967296 := by omega
    simp [this, e255]

theorem ReadCompactSize_eq_some (s : List Byte) (n : Nat) (rest : List Byte)
    (h : ReadCompactSize s = some (n, rest)) : s = WriteCompactSize n ++ rest ∧ n < 2 ^ 64 := by
  cases s with
  | nil => simp [ReadCompactSize] at h
  | cons b tl =>
    simp only [ReadCompactSize] at h
    split_ifs at h with h1 h2 h3
    · simp only [Option.some.injEq, Prod.mk.injEq] at h
      obtain ⟨hn, hrest⟩ := h
      subst hn hrest
      have : b.val % 256 = b.val := by omega
      refine ⟨?_, by omega⟩
      simp [WriteCompactSize, h1, leBytes, this]
    · cases hr : readLE 2 tl with
      | none => simp [hr] at h
      | some p =>
        obtain ⟨m, r⟩ := p
        simp only [hr] at h
        split_ifs at h with h4
        simp only [Option.some.injEq, Prod.mk.injEq] at h
        obtain ⟨hn, hrest⟩ := h
        subst hn hrest
        obtain ⟨hs, hm⟩ := readLE_eq_some 2 tl m r hr
        norm_num at hm
        refine ⟨?_, by omega⟩
        have hb : b = 253 := Fin.ext h2
        have : m ≤ 65535 := by omega
        simp [WriteCompactSize, h4, this, hs, hb]
    · cases hr : readLE 4 tl with
      | none => simp [hr] at h
      | some p =>
        obtain ⟨m, r⟩ := p
        simp only [hr] at h
        split_ifs at h with h4
        simp only [Option.some.injEq, Prod.mk.injEq] at h
        obtain ⟨hn, hrest⟩ := h
        subst hn hrest
        obtain ⟨hs, hm⟩ := readLE_eq_some 4 tl m r hr
        norm_num at hm
        refine ⟨?_, by omega⟩
        have hb : b = 254 := Fin.ext h3
        have h5 : ¬ m < 253 := by omega
        have h6 : ¬ m ≤ 65535 := by omega
        have h7 : m ≤ 4294967295 := by omega
        simp [WriteCompactSize, h5, h6, h7, hs, hb]
    · cases hr : readLE 8 tl with
      | none => simp [hr] at h
      | some p =>
        obtain ⟨m, r⟩ := p
        simp only [hr] at h
        split_ifs at h with h4
        simp only [Option.some.injEq, Prod.mk.injEq] at h
        obtain ⟨hn, hrest⟩ := h
        subst hn hrest
        obtain ⟨hs, hm⟩ := readLE_eq_some 8 tl m r hr
        norm_num at hm
        refine ⟨?_, by omega⟩
        have hb : b = 255 := by
          have := b.isLt
          exact Fin.ext (by show b.val = 255; omega)
        have h5 : ¬ m < 253 := by omega
        have h6 : ¬ m ≤ 65535 := by omega
        have h7 : ¬ m ≤ 4294967295 := by omega
        simp [WriteCompactSize, h5, h6, h7, hs, hb]

theorem readCharString_write (v : CharString) (rest : List Byte) (h : v.length < 2 ^ 64) :
    readCharString (writeCharString v ++ rest) = some (v, rest) := by
  simp only [readCharString, writeCharString, List.append_assoc,
    ReadCompactSize_WriteCompactSize _ _ h]
  simp

theorem readCharString_eq_some (s : List Byte) (v : CharString) (rest : List Byte)
    (h : readCharString s = some (v, rest)) :
    s = writeCharString v ++ rest ∧ v.length < 2 ^ 64 := by
  unfold readCharString at h
  cases hr : ReadCompactSize s with
  | none => simp [hr] at h
  | some p =>
    obtain ⟨n, r⟩ := p
    simp only [hr] at h
    split_ifs at h with h1
    simp only [Option.some.injEq, Prod.mk.injEq] at h
    obtain ⟨hv, hrest⟩ := h
    obtain ⟨hs, hn⟩ := ReadCompactSize_eq_some s n r hr
    have hl : v.length = n := by rw [← hv]; simp; omega
    refine ⟨?_, by omega⟩
    rw [hs, writeCharString, hl, ← hv, ← hrest, List.append_assoc, List.take_append_drop]

theorem readElements_write (l : vCharString) (rest : List Byte)
    (h : ∀ v ∈ l, v.length < 2 ^ 64) :
    readElements l.length (writeElements l ++ rest) = some (l, rest) := by
  induction l with
  | nil => rfl
  | cons v vs ih =>
    have hv := h v (by simp)
    have hvs := ih (fun u hu => h u (by simp [hu]))
    simp only [List.length_cons, readElements, writeElements, List.append_assoc,
      readCharString_write _ _ hv, hvs]

theorem readElements_eq_some (n : Nat) (s : List Byte) (l : vCharString) (rest : List Byte)
    (h : readElements n s = some (l, rest)) :
    s = writeElements l ++ rest ∧ l.length = n ∧ ∀ v ∈ l, v.length < 2 ^ 64 := by
  induction n generalizing s l with
  | zero =>
    simp only [readElements, Option.some.injEq, Prod.mk.injEq] at h
    obtain ⟨hl, hrest⟩ := h
    subst hl hrest
    simp [writeElements]
  | succ k ih =>
    simp only [readElements] at h
    cases hr : readCharString s with
    | none => simp [hr] at h
    | some p =>
      obtain ⟨v, r⟩ := p
      simp only [hr] at h
      cases hr2 : readElements k r with
      | none => simp [hr2] at h
      | some q =>
        obtain ⟨vs, r2⟩ := q
        simp only [hr2, Option.some.injEq, Prod.mk.injEq] at h
        obtain ⟨hl, hrest⟩ := h
        subst hl hrest
        obtain ⟨hs, hv⟩ := readCharString_eq_some s v r hr
        obtain ⟨hs2, hlen, hvs⟩ := ih r vs hr2
        refine ⟨?_, by simp [hlen], ?_⟩
        · rw [hs, hs2, writeElements, List.append_assoc]
        · intro u hu
          rcases List.mem_cons.mp hu with rfl | hu
          · exact hv
          · exact hvs u hu

theorem readVCharString_write (l : vCharString) (rest : List Byte)
    (h : l.length < 2 ^ 64 ∧ ∀ v ∈ l, v.length < 2 ^ 64) :
    readVCharString (writeVCharString l ++ rest) = some (l, rest) := by
  simp only [readVCharString, writeVCharString, List.append_assoc,
    ReadCompactSize_WriteCompactSize _ _ h.1, readElements_write _ _ h.2]

theorem readVCharString_eq_some (s : List Byte) (l : vCharString) (rest : List Byte)
    (h : readVCharString s = some (l, rest)) :
    s = writeVCharString l ++ rest ∧ l.length < 2 ^ 64 ∧ ∀ v ∈ l, v.length < 2 ^ 64 := by
  unfold readVCharString at h
  cases hr : ReadCompactSize s with
  | none => simp [hr] at h
  | some p =>
    obtain ⟨n, r⟩ := p
    simp only [hr] at h
    obtain ⟨hs, hn⟩ := ReadCompactSize_eq_some s n r hr
    obtain ⟨hs2, hlen, hvs⟩ := readElements_eq_some n r l rest h
    refine ⟨?_, by omega, hvs⟩
    rw [hs, hs2, writeVCharString, hlen, List.append_assoc]

theorem readInt32_write (v : Int) (rest : List Byte) (h : -(2 ^ 31) ≤ v ∧ v < 2 ^ 31) :
    readInt32 (writeInt32 v ++ rest) = some (v, rest) := by
  have h1 : (v % 2 ^ 32).toNat < 256 ^ 4 := by omega
  simp only [readInt32, writeInt32, readLE_leBytes_append _ _ _ h1, Option.some.injEq,
    Prod.mk.injEq, and_true]
  split_ifs <;> omega

theorem readInt32_eq_some (s : List Byte) (v : Int) (rest : List Byte)
    (h : readInt32 s = some (v, rest)) :
    s = writeInt32 v ++ rest ∧ -(2 ^ 31) ≤ v ∧ v < 2 ^ 31 := by
  unfold readInt32 at h
  cases hr : readLE 4 s with
  | none => simp [hr] at h
  | some p =>
    obtain ⟨u, r⟩ := p
    simp only [hr, Option.some.injEq, Prod.mk.injEq] at h
    obtain ⟨hv, hrest⟩ := h
    subst hrest
    obtain ⟨hs, hu⟩ := readLE_eq_some 4 s u r hr
    norm_num at hu
    have hw : (v % 2 ^ 32).toNat = u := by
      split_ifs at hv <;> omega
    refine ⟨by rw [hs, writeInt32, hw], ?_, ?_⟩ <;> split_ifs at hv <;> omega

theorem readUint256_write (x : uint256) (rest : List Byte) :
    readUint256 (writeUint256 x ++ rest) = some (x, rest) := by
  have h1 : x.val < 256 ^ 32 := by have := x.isLt; norm_num at this ⊢; exact this
  simp only [readUint256, writeUint256, readLE_leBytes_append _ _ _ h1, Option.some.injEq,
    Prod.mk.injEq, and_true]
  exact Fin.ext (Nat.mod_eq_of_lt x.isLt)

theorem readUint256_eq_some (s : List Byte) (x : uint256) (rest : List Byte)
    (h : readUint256 s = some (x, rest)) : s = writeUint256 x ++ rest := by
  unfold readUint256 at h
  cases hr : readLE 32 s with
  | none => simp [hr] at h
  | some p =>
    obtain ⟨u, r⟩ := p
    simp only [hr, Option.some.injEq, Prod.mk.injEq] at h
    obtain ⟨hx, hrest⟩ := h
    subst hrest
    obtain ⟨hs, hu⟩ := readLE_eq_some 32 s u r hr
    have hu2 : u % 2 ^ 256 = u := Nat.mod_eq_of_lt (by norm_num at hu ⊢; exact hu)
    have : x.val = u := by rw [← hx]; exact hu2
    rw [hs, writeUint256, this]

/-! ## The certificate codec: auxiliary lemmas -/

theorem readField_write {α : Type} (read : List Byte → Option (α × List Byte))
    (assign : CCertificate → α → CCertificate) (c : CCertificate) (s rest : List Byte) (x : α)
    (h : read s = some (x, rest)) :
    readField read assign (c, s) = some (assign c x, rest) := by
  simp only [readField, h]

theorem readField_eq_some {α : Type} (read : List Byte → Option (α × List Byte))
    (assign : CCertificate → α → CCertificate) (st st' : CCertificate × List Byte)
    (h : readField read assign st = some st') :
    ∃ x, read st.2 = some (x, st'.2) ∧ st'.1 = assign st.1 x := by
  unfold readField at h
  cases hr : read st.2 with
  | none => simp [hr] at h
  | some p =>
    obtain ⟨x, r⟩ := p
    simp only [hr, Option.some.injEq] at h
    subst h
    exact ⟨x, rfl, rfl⟩

theorem SerializationOpRead_write (self c : CCertificate) (rest : List Byte) (h : c.InRange) :
    SerializationOpRead self (SerializationOpWrite c ++ rest) = some (c, rest) := by
  obtain ⟨⟨i1, i2, i3, i4, i5, i6⟩, ⟨b1, b2, b3, b4, b5, b6, b7, b8⟩,
    x1, x2, x3, x4, x5, x6, x7⟩ := h
  have e2 : (2 : Nat) ^ 16 = 256 ^ 2 := by norm_num
  have e4 : (2 : Nat) ^ 32 = 256 ^ 4 := by norm_num
  have e8 : (2 : Nat) ^ 64 = 256 ^ 8 := by norm_num
  rw [e2] at i3
  rw [e4] at i5 i6
  rw [e8] at i4
  simp only [SerializationOpRead, SerializationOpWrite, List.append_assoc, Option.some_bind]
  rw [readField_write _ _ _ _ _ _ (readInt32_write _ _ ⟨i1, i2⟩), Option.some_bind,
    readField_write _ _ _ _ _ _ (readLE_leBytes_append _ _ _ i3), Option.some_bind,
    readField_write _ _ _ _ _ _ (readCharString_write _ _ b1), Option.some_bind,
    readField_write _ _ _ _ _ _ (readCharString_write _ _ b2), Option.some_bind,
    readField_write _ _ _ _ _ _ (readCharString_write _ _ b3), Option.some_bind,
    readField_write _ _ _ _ _ _ (readCharString_write _ _ b4), Option.some_bind,
    readField_write _ _ _ _ _ _ (readCharString_write _ _ b5), Option.some_bind,
    readField_write _ _ _ _ _ _ (readCharString_write _ _ b6), Option.some_bind,
    readField_write _ _ _ _ _ _ (readCharString_write _ _ b7), Option.some_bind,
    readField_write _ _ _ _ _ _ (readCharString_write _ _ b8), Option.some_bind,
    readField_write _ _ _ _ _ _ (readLE_leBytes_append _ _ _ i4), Option.some_bind,
    readField_write _ _ _ _ _ _ (readVCharString_write _ _ x1), Option.some_bind,
    readField_write _ _ _ _ _ _ (readVCharString_write _ _ x2), Option.some_bind,
    readField_write _ _ _ _ _ _ (readVCharString_write _ _ x3), Option.some_bind,
    readField_write _ _ _ _ _ _ (readVCharString_write _ _ x4), Option.some_bind,
    readField_write _ _ _ _ _ _ (readVCharString_write _ _ x5), Option.some_bind,
    readField_write _ _ _ _ _ _ (readVCharString_write _ _ x6), Option.some_bind,
    readField_write _ _ _ _ _ _ (readVCharString_write _ _ x7), Option.some_bind,
    readField_write _ _ _ _ _ _ (readUint256_write _ _), Option.some_bind,
    readField_write _ _ _ _ _ _ (readLE_leBytes_append _ _ _ i5), Option.some_bind,
    readField_write _ _ _ _ _ _ (readUint256_write _ _), Option.some_bind,
    readField_write _ _ _ _ _ _ (readLE_leBytes_append _ _ _ i6)]

theorem SerializationOpRead_eq_some (self : CCertificate) (s : List Byte) (c : CCertificate)
    (rest : List Byte) (h : SerializationOpRead self s = some (c, rest)) :
    s = SerializationOpWrite c ++ rest ∧ c.InRange := by
  unfold SerializationOpRead at h
  obtain ⟨⟨c21, s21⟩, h, h22⟩ := Option.bind_eq_some.mp h
  obtain ⟨⟨c20, s20⟩, h, h21⟩ := Option.bind_eq_some.mp h
  obtain ⟨⟨c19, s19⟩, h, h20⟩ := Option.bind_eq_some.mp h
  obtain ⟨⟨c18, s18⟩, h, h19⟩ := Option.bind_eq_some.mp h
  obtain ⟨⟨c17, s17⟩, h, h18⟩ := Option.bind_eq_some.mp h
  obtain ⟨⟨c16, s16⟩, h, h17⟩ := Option.bind_eq_some.mp h
  obtain ⟨⟨c15, s15⟩, h, h16⟩ := Option.bind_eq_some.mp h
  obtain ⟨⟨c14, s14⟩, h, h15⟩ := Option.bind_eq_some.mp h
  obtain ⟨⟨c13, s13⟩, h, h14⟩ := Option.bind_eq_some.mp h
  obtain ⟨⟨c12, s12⟩, h, h13⟩ := Option.bind_eq_some.mp h
  obtain ⟨⟨c11, s11⟩, h, h12⟩ := Option.bind_eq_some.mp h
  obtain ⟨⟨c10, s10⟩, h, h11⟩ := Option.bind_eq_some.mp h
  obtain ⟨⟨c9, s9⟩, h, h10⟩ := Option.bind_eq_some.mp h
  obtain ⟨⟨c8, s8⟩, h, h9⟩ := Option.bind_eq_some.mp h
  obtain ⟨⟨c7, s7⟩, h, h8⟩ := Option.bind_eq_some.mp h
  obtain ⟨⟨c6, s6⟩, h, h7⟩ := Option.bind_eq_some.mp h
  obtain ⟨⟨c5, s5⟩, h, h6⟩ := Option.bind_eq_some.mp h
  obtain ⟨⟨c4, s4⟩, h, h5⟩ := Option.bind_eq_some.mp h
  obtain ⟨⟨c3, s3⟩, h, h4⟩ := Option.bind_eq_some.mp h
  obtain ⟨⟨c2, s2⟩, h, h3⟩ := Option.bind_eq_some.mp h
  obtain ⟨⟨c1, s1⟩, h, h2⟩ := Option.bind_eq_some.mp h
  obtain ⟨⟨c0, s0⟩, h, h1⟩ := Option.bind_eq_some.mp h
  simp only [Option.some.injEq, Prod.mk.injEq] at h
  obtain ⟨hc0, hs0⟩ := h
  subst hc0 hs0
  obtain ⟨x1, r1, a1⟩ := readField_eq_some _ _ _ _ h1
  simp only [] at r1 a1
  obtain ⟨x2, r2, a2⟩ := readField_eq_some _ _ _ _ h2
  simp only [] at r2 a2
  obtain ⟨x3, r3, a3⟩ := readField_eq_some _ _ _ _ h3
  simp only [] at r3 a3
  obtain ⟨x4, r4, a4⟩ := readField_eq_some _ _ _ _ h4
  simp only [] at r4 a4
  obtain ⟨x5, r5, a5⟩ := readField_eq_some _ _ _ _ h5
  simp only [] at r5 a5
  obtain ⟨x6, r6, a6⟩ := readField_eq_some _ _ _ _ h6
  simp only [] at r6 a6
  obtain ⟨x7, r7, a7⟩ := readField_eq_some _ _ _ _ h7
  simp only [] at r7 a7
  obtain ⟨x8, r8, a8⟩ := readField_eq_some _ _ _ _ h8
  simp only [] at r8 a8
  obtain ⟨x9, r9, a9⟩ := readField_eq_some _ _ _ _ h9
  simp only [] at r9 a9
  obtain ⟨x10, r10, a10⟩ := readField_eq_some _ _ _ _ h10
  simp only [] at r10 a10
  obtain ⟨x11, r11, a11⟩ := readField_eq_some _ _ _ _ h11
  simp only [] at r11 a11
  obtain ⟨x12, r12, a12⟩ := readField_eq_some _ _ _ _ h12
  simp only [] at r12 a12
  obtain ⟨x13, r13, a13⟩ := readField_eq_some _ _ _ _ h13
  simp only [] at r13 a13
  obtain ⟨x14, r14, a14⟩ := readField_eq_some _ _ _ _ h14
  simp only [] at r14 a14
  obtain ⟨x15, r15, a15⟩ := readField_eq_some _ _ _ _ h15
  simp only [] at r15 a15
  obtain ⟨x16, r16, a16⟩ := readField_eq_some _ _ _ _ h16
  simp only [] at r16 a16
  obtain ⟨x17, r17, a17⟩ := readField_eq_some _ _ _ _ h17
  simp only [] at r17 a17
  obtain ⟨x18, r18, a18⟩ := readField_eq_some _ _ _ _ h18
  simp only [] at r18 a18
  obtain ⟨x19, r19, a19⟩ := readField_eq_some _ _ _ _ h19
  simp only [] at r19 a19
  obtain ⟨x20, r20, a20⟩ := readField_eq_some _ _ _ _ h20
  simp only [] at r20 a20
  obtain ⟨x21, r21, a21⟩ := readField_eq_some _ _ _ _ h21
  simp only [] at r21 a21
  obtain ⟨x22, r22, a22⟩ := readField_eq_some _ _ _ _ h22
  simp only [] at r22 a22
  obtain ⟨p1, q1⟩ := readInt32_eq_some _ _ _ r1
  obtain ⟨p2, q2⟩ := readLE_eq_some _ _ _ _ r2
  obtain ⟨p3, q3⟩ := readCharString_eq_some _ _ _ r3
  obtain ⟨p4, q4⟩ := readCharString_eq_some _ _ _ r4
  obtain ⟨p5, q5⟩ := readCharString_eq_some _ _ _ r5
  obtain ⟨p6, q6⟩ := readCharString_eq_some _ _ _ r6
  obtain ⟨p7, q7⟩ := readCharString_eq_some _ _ _ r7
  obtain ⟨p8, q8⟩ := readCharString_eq_some _ _ _ r8
  obtain ⟨p9, q9⟩ := readCharString_eq_some _ _ _ r9
  obtain ⟨p10, q10⟩ := readCharString_eq_some _ _ _ r10
  obtain ⟨p11, q11⟩ := readLE_eq_some _ _ _ _ r11
  obtain ⟨p12, q12⟩ := readVCharString_eq_some _ _ _ r12
  obtain ⟨p13, q13⟩ := readVCharString_eq_some _ _ _ r13
  obtain ⟨p14, q14⟩ := readVCharString_eq_some _ _ _ r14
  obtain ⟨p15, q15⟩ := readVCharString_eq_some _ _ _ r15
  obtain ⟨p16, q16⟩ := readVCharString_eq_some _ _ _ r16
  obtain ⟨p17, q17⟩ := readVCharString_eq_some _ _ _ r17
  obtain ⟨p18, q18⟩ := readVCharString_eq_some _ _ _ r18
  have p19 := readUint256_eq_some _ _ _ r19
  obtain ⟨p20, q20⟩ := readLE_eq_some _ _ _ _ r20
  have p21 := readUint256_eq_some _ _ _ r21
  obtain ⟨p22, q22⟩ := readLE_eq_some _ _ _ _ r22
  norm_num at q2 q11 q20 q22
  subst a22 a21 a20 a19 a18 a17 a16 a15 a14 a13 a12 a11 a10 a9 a8 a7 a6 a5 a4 a3 a2 a1
  constructor
  · rw [p1, p2, p3, p4, p5, p6, p7, p8, p9, p10, p11, p12, p13, p14, p15, p16, p17, p18, p19, p20, p21, p22]
    simp only [SerializationOpWrite, List.append_assoc]
  · exact ⟨⟨q1.1, q1.2, by norm_num; exact q2, by norm_num; exact q11, by norm_num; exact q20, by norm_num; exact q22⟩,
      ⟨q3, q4, q5, q6, q7, q8, q9, q10⟩, q12, q13, q14, q15, q16, q17, q18⟩

theorem SetNull_isNull (c : CCertificate) : (SetNull c).IsNull := by
  simp [CCertificate.IsNull, SetNull]

theorem UnserializeFromData_of_read_none (Hash : List Byte → uint256) (self : CCertificate)
    (data v : List Byte) (h : SerializationOpRead self data = none) :
    UnserializeFromData Hash self data v = (false, SetNull self) := by
  unfold UnserializeFromData
  rw [h]

theorem UnserializeFromData_of_read_some (Hash : List Byte → uint256) (self : CCertificate)
    (data v : List Byte) (r' : CCertificate) (rest : List Byte)
    (h : SerializationOpRead self data = some (r', rest)) :
    UnserializeFromData Hash self data v =
      if vchFromValue (GetHex (Hash (Serialize r'))) ≠ v then (false, SetNull r')
      else (true, r') := by
  unfold UnserializeFromData
  rw [h]

theorem hexChar_byte_injective :
    ∀ a b : Fin 16, (⟨(hexChar a.val).toNat % 256, Nat.mod_lt _ (by decide)⟩ : Byte) =
      ⟨(hexChar b.val).toNat % 256, Nat.mod_lt _ (by decide)⟩ → a = b := by
  decide

theorem vchFromString_hexDigits_injective (k n m : Nat)
    (h : vchFromString (String.mk (hexDigits k n)) = vchFromString (String.mk (hexDigits k m))) :
    n % 16 ^ k = m % 16 ^ k := by
  induction k generalizing n m with
  | zero => simp [Nat.mod_one]
  | succ k ih =>
    simp only [vchFromString, hexDigits, List.map_append, List.map_cons, List.map_nil] at h ih
    have hlen : ∀ x : Nat, ((hexDigits k x).map fun ch =>
        (⟨ch.toNat % 256, Nat.mod_lt _ (by decide)⟩ : Byte)).length = k := by
      intro x
      rw [List.length_map]
      clear h ih
      induction k generalizing x with
      | zero => rfl
      | succ j ihj => simp [hexDigits, ihj]
    obtain ⟨h1, h2⟩ := List.append_inj h (by rw [hlen, hlen])
    have h3 := ih _ _ h1
    simp only [List.cons.injEq, and_true] at h2
    have h4 := hexChar_byte_injective ⟨n % 16, Nat.mod_lt _ (by decide)⟩
      ⟨m % 16, Nat.mod_lt _ (by decide)⟩ h2
    simp only [Fin.mk.injEq] at h4
    rw [pow_succ', Nat.mod_mul, Nat.mod_mul, h3, h4]

theorem vchFromValue_GetHex_injective (a b : uint256)
    (h : vchFromValue (GetHex a) = vchFromValue (GetHex b)) : a = b := by
  have h1 := vchFromString_hexDigits_injective 64 a.val b.val h
  have ha : a.val < 16 ^ 64 := by have := a.isLt; norm_num at this ⊢; exact this
  have hb : b.val < 16 ^ 64 := by have := b.isLt; norm_num at this ⊢; exact this
  rw [Nat.mod_eq_of_lt ha, Nat.mod_eq_of_lt hb] at h1
  exact Fin.ext h1


theorem SerializationOpRead_truncated (self r : CCertificate) (p t : List Byte)
    (hr : r.InRange) (hp : p ++ t = Serialize r) (ht : t ≠ []) :
    SerializationOpRead self p = none := by
  cases h : SerializationOpRead self p with
  | none => rfl
  | some q =>
    obtain ⟨r', rest⟩ := q
    obtain ⟨hs, hr'⟩ := SerializationOpRead_eq_some self p r' rest h
    have h1 := SerializationOpRead_write self r' (rest ++ t) hr'
    have h2 := SerializationOpRead_write self r [] hr
    rw [List.append_nil, ← Serialize, ← hp, hs, List.append_assoc, h1] at h2
    simp only [Option.some.injEq, Prod.mk.injEq, List.append_eq_nil] at h2
    exact absurd h2.2.2 ht

theorem set_ne_append (s : List Byte) (i : Nat) (hi : i < s.length) (b : Byte)
    (hb : b ≠ s.get ⟨i, hi⟩) (rest : List Byte) : s.set i b ≠ s ++ rest := by
  intro hs
  have hlen := congrArg List.length hs
  simp only [List.length_set, List.length_append] at hlen
  have hrest : rest = [] := List.length_eq_zero.mp (by omega)
  rw [hrest, List.append_nil] at hs
  have h3 := congrArg (fun l => l[i]?) hs
  simp only [List.getElem?_set_self hi, List.getElem?_eq_getElem hi,
    Option.some.injEq] at h3
  exact hb (by simpa using h3)

/-! ## Binary codec (C1 to C5) -/

/-- C1. Round trip: for every record `r` (with members in the range of their C++ types),
`UnserializeFromData` on the bytes `Serialize r` produces, with the reference hash set to the
bytes of the hex string of `GetHash r`, returns `true` and leaves a record equal to `r`,
whatever the record held before. -/
theorem UnserializeFromData_Serialize (Hash : List Byte → uint256) (self r : CCertificate)
    (hr : r.InRange) :
    UnserializeFromData Hash self (Serialize r) (vchFromValue (GetHex (GetHash Hash r)))
      = (true, r) := by
  have h : SerializationOpRead self (Serialize r) = some (r, []) := by
    have := SerializationOpRead_write self r [] hr
    rw [List.append_nil] at this
    exact this
  rw [UnserializeFromData_of_read_some Hash self _ _ r [] h]
  exact if_neg (fun hne => hne rfl)

/-- An instance of C1: the example record round-trips under the example digest. -/
theorem UnserializeFromData_Serialize_witness :
    exampleCertificate.InRange ∧
    UnserializeFromData exampleHash (SetNull exampleCertificate) (Serialize exampleCertificate)
      (vchFromValue (GetHex (GetHash exampleHash exampleCertificate)))
      = (true, exampleCertificate) :=
  ⟨by decide, UnserializeFromData_Serialize exampleHash _ exampleCertificate (by decide)⟩

/-- C2. Integrity rejection: replacing exactly one byte of `Serialize r` by a different byte
makes `UnserializeFromData` with the reference hash of `r` return `false`, as long as the digest
function has no collision between `Serialize r` and the serialization of what the mutated bytes
decode to. -/
theorem UnserializeFromData_single_byte_mutation (Hash : List Byte → uint256)
    (self r : CCertificate) (i : Nat) (hi : i < (Serialize r).length) (b : Byte)
    (hb : b ≠ (Serialize r).get ⟨i, hi⟩)
    (hcoll : ∀ r' rest, SerializationOpRead self ((Serialize r).set i b) = some (r', rest) →
      Hash (Serialize r') = Hash (Serialize r) → Serialize r' = Serialize r) :
    (UnserializeFromData Hash self ((Serialize r).set i b)
      (vchFromValue (GetHex (GetHash Hash r)))).1 = false := by
  cases hr : SerializationOpRead self ((Serialize r).set i b) with
  | none => rw [UnserializeFromData_of_read_none Hash self _ _ hr]
  | some q =>
    obtain ⟨r', rest⟩ := q
    rw [UnserializeFromData_of_read_some Hash self _ _ r' rest hr]
    have hne : vchFromValue (GetHex (Hash (Serialize r'))) ≠
        vchFromValue (GetHex (GetHash Hash r)) := by
      intro heq
      have h1 : Hash (Serialize r') = Hash (Serialize r) :=
        vchFromValue_GetHex_injective _ _ heq
      have h2 := hcoll r' rest hr h1
      obtain ⟨hs, -⟩ := SerializationOpRead_eq_some self _ r' rest hr
      have hs' : (Serialize r).set i b = Serialize r ++ rest :=
        hs.trans (congrArg (fun l => l ++ rest) h2)
      exact set_ne_append (Serialize r) i hi b hb rest hs'
    rw [if_pos hne]

/-- An instance of C2: the first byte of the serialized example record changed from 1 to 2; the
mutated bytes decode to a record of version 2, whose digest differs. -/
theorem UnserializeFromData_single_byte_mutation_witness :
    (UnserializeFromData exampleHash exampleCertificate ((Serialize exampleCertificate).set 0 2)
      (vchFromValue (GetHex (GetHash exampleHash exampleCertificate)))).1 = false :=
  UnserializeFromData_single_byte_mutation exampleHash exampleCertificate exampleCertificate 0
    (by decide) 2 (by decide)
    (by
      intro r' rest hread hhash
      have hconcrete : SerializationOpRead exampleCertificate
          ((Serialize exampleCertificate).set 0 2)
          = some ({ exampleCertificate with nVersion := 2 }, []) := by rfl
      rw [hconcrete] at hread
      simp only [Option.some.injEq, Prod.mk.injEq] at hread
      obtain ⟨hr', -⟩ := hread
      subst hr'
      exact absurd hhash (by decide))

/-- C3. Hash mismatch: when the payload parses to some record `r'` and the reference hash `v`
differs from the hex-string bytes of the digest of `Serialize r'`, `UnserializeFromData` returns
`false` and leaves the null record (all fields empty), whatever the record held before; every
parse failure has exactly the same outcome. -/
theorem UnserializeFromData_hash_mismatch (Hash : List Byte → uint256)
    (self : CCertificate) (data v : List Byte) (r' : CCertificate) (rest : List Byte)
    (hparse : SerializationOpRead self data = some (r', rest))
    (hv : v ≠ vchFromValue (GetHex (Hash (Serialize r')))) :
    (UnserializeFromData Hash self data v).1 = false ∧
    (UnserializeFromData Hash self data v).2.IsNull ∧
    ∀ (self₂ : CCertificate) (data₂ v₂ : List Byte), SerializationOpRead self₂ data₂ = none →
      UnserializeFromData Hash self₂ data₂ v₂ = UnserializeFromData Hash self data v := by
  have h : UnserializeFromData Hash self data v = (false, SetNull r') := by
    rw [UnserializeFromData_of_read_some Hash self data v r' rest hparse]
    exact if_pos (Ne.symm hv)
  refine ⟨by rw [h], by rw [h]; exact SetNull_isNull r', ?_⟩
  intro self₂ data₂ v₂ h₂
  rw [h, UnserializeFromData_of_read_none Hash self₂ data₂ v₂ h₂]
  rfl

/-- An instance of C3: the serialized example record with the reference hash "00". -/
theorem UnserializeFromData_hash_mismatch_witness :
    (UnserializeFromData exampleHash exampleInvalidCertificate (Serialize exampleCertificate)
      [48, 48]).1 = false ∧
    (UnserializeFromData exampleHash exampleInvalidCertificate (Serialize exampleCertificate)
      [48, 48]).2.IsNull :=
  have h := UnserializeFromData_hash_mismatch exampleHash exampleInvalidCertificate
    (Serialize exampleCertificate) [48, 48] exampleCertificate [] (by rfl) (by decide)
  ⟨h.1, h.2.1⟩

/-- C4. Parse failure and truncation: when the stream decoder cannot decode `data`,
`UnserializeFromData` returns `false` (a value, not an exception) and leaves the null record;
and every proper prefix `p` of `Serialize r` (so `Serialize r = p ++ t` with `t` non-empty) is
such an undecodable byte string. -/
theorem UnserializeFromData_parse_failure (Hash : List Byte → uint256)
    (self : CCertificate) (data v : List Byte) (r : CCertificate) (p t : List Byte)
    (hdata : SerializationOpRead self data = none)
    (hr : r.InRange) (hp : p ++ t = Serialize r) (ht : t ≠ []) :
    ((UnserializeFromData Hash self data v).1 = false ∧
      (UnserializeFromData Hash self data v).2.IsNull) ∧
    SerializationOpRead self p = none ∧
    ((UnserializeFromData Hash self p v).1 = false ∧
      (UnserializeFromData Hash self p v).2.IsNull) := by
  have hp' := SerializationOpRead_truncated self r p t hr hp ht
  rw [UnserializeFromData_of_read_none Hash self data v hdata,
    UnserializeFromData_of_read_none Hash self p v hp']
  exact ⟨⟨rfl, SetNull_isNull self⟩, hp', rfl, SetNull_isNull self⟩

/-- An instance of C4: the first ten bytes of the serialized example record. -/
theorem UnserializeFromData_parse_failure_witness :
    SerializationOpRead exampleCertificate ((Serialize exampleCertificate).take 10) = none ∧
    (UnserializeFromData exampleHash exampleCertificate ((Serialize exampleCertificate).take 10)
      (vchFromValue (GetHex (GetHash exampleHash exampleCertificate)))).2.IsNull :=
  have h := UnserializeFromData_parse_failure exampleHash exampleCertificate [253, 1]
    (vchFromValue (GetHex (GetHash exampleHash exampleCertificate))) exampleCertificate
    ((Serialize exampleCertificate).take 10) ((Serialize exampleCertificate).drop 10)
    (by rfl) (by decide) (List.take_append_drop 10 _) (by decide)
  ⟨h.2.1, h.2.2.2⟩

/-- C5. Postcondition of a successful decode: whenever `UnserializeFromData data refHash`
returns `true`, the bytes of the hex string of `GetHash` of the resulting record equal `refHash`,
and that `GetHash` is the digest of the bytes `Serialize` produces for the record. -/
theorem UnserializeFromData_true_hash (Hash : List Byte → uint256) (self : CCertificate)
    (data refHash : List Byte) (h : (UnserializeFromData Hash self data refHash).1 = true) :
    vchFromValue (GetHex (GetHash Hash (UnserializeFromData Hash self data refHash).2))
      = refHash ∧
    GetHash Hash (UnserializeFromData Hash self data refHash).2
      = Hash (Serialize (UnserializeFromData Hash self data refHash).2) := by
  refine ⟨?_, rfl⟩
  cases hr : SerializationOpRead self data with
  | none =>
    rw [UnserializeFromData_of_read_none Hash self data refHash hr] at h
    cases h
  | some q =>
    obtain ⟨r', rest⟩ := q
    rw [UnserializeFromData_of_read_some Hash self data refHash r' rest hr] at h ⊢
    by_cases hv : vchFromValue (GetHex (Hash (Serialize r'))) = refHash
    · rw [if_neg (not_not.mpr hv)]
      exact hv
    · rw [if_pos hv] at h
      cases h

/-- An instance of C5: decoding the serialized example record against its own hash. -/
theorem UnserializeFromData_true_hash_witness :
    vchFromValue (GetHex (GetHash exampleHash
      (UnserializeFromData exampleHash exampleInvalidCertificate (Serialize exampleCertificate)
        (vchFromValue (GetHex (GetHash exampleHash exampleCertificate)))).2))
      = vchFromValue (GetHex (GetHash exampleHash exampleCertificate)) :=
  (UnserializeFromData_true_hash exampleHash exampleInvalidCertificate
    (Serialize exampleCertificate)
    (vchFromValue (GetHex (GetHash exampleHash exampleCertificate))) (by rfl)).1


/-! ## Field validator (C6 to C9) -/

/-- C6. Field validator characterisation: `ValidateValues` returns `true` if and only if
subject, subjectSignature and publicKey are non-empty, the eight bounded byte strings are no
longer than their maximum length constant, and each of the seven extension lists has at most the
maximum record count and only elements no longer than the maximum element length. -/
theorem ValidateValues_true_iff_withinLimits (L : Limits) (c : CCertificate) (e : String) :
    (ValidateValues L c e).1 = true ↔ WithinLimits L c :=
  ValidateValues_fst_eq_true_iff L c e

/-- C7. First-failure message: if check number `i` of the specified order is violated and no
earlier check is, `ValidateValues` returns `false` with the message of check `i`, and that
message is the message of no later check (however many of them are violated too). -/
theorem ValidateValues_first_violated_message (L : Limits) (c : CCertificate) (e : String)
    (i : Nat) (hi : i < (checks L c).length)
    (hviol : ((checks L c).get ⟨i, hi⟩).violated)
    (hfirst : ∀ j (hj : j < (checks L c).length), j < i →
      ¬ ((checks L c).get ⟨j, hj⟩).violated) :
    ValidateValues L c e = (false, ((checks L c).get ⟨i, hi⟩).message) ∧
    ∀ j (hj : j < (checks L c).length), i < j →
      (ValidateValues L c e).2 ≠ ((checks L c).get ⟨j, hj⟩).message := by
  have h := firstViolated_eq_of_first (checks L c) e i hi hviol hfirst
  rw [← ValidateValues_eq_firstViolated] at h
  refine ⟨h, ?_⟩
  intro j hj hij heq
  rw [h] at heq
  have hnd := checks_messages_nodup L c
  have hinj := (List.nodup_iff_injective_get.mp hnd)
  have hi' : i < ((checks L c).map Check.message).length := by simpa using hi
  have hj' : j < ((checks L c).map Check.message).length := by simpa using hj
  have := @hinj ⟨i, hi'⟩ ⟨j, hj'⟩ (by simpa using heq)
  simp only [Fin.mk.injEq] at this
  omega

/-- An instance of C7: a record violating the fingerprint, issuer and KeyUsage checks gets the
fingerprint message. -/
theorem ValidateValues_first_violated_message_witness :
    ValidateValues exampleLimits exampleInvalidCertificate ""
      = (false, "Invalid Finger Print. Can not have more than 4 characters.") :=
  (ValidateValues_first_violated_message exampleLimits exampleInvalidCertificate "" 5
    (by decide) (by decide) (by decide)).1

/-- C8. Length boundary: starting from a valid record, replacing a bounded byte-string field
by a value whose length equals the field's maximum keeps `ValidateValues` at `true` (for the three
fields that must be non-empty the value has to be non-empty), and replacing it by a value one
byte longer makes it return `false` with the message naming that field and that maximum. -/
theorem ValidateValues_length_boundary (L : Limits) (c : CCertificate) (e : String)
    (f : BoundedField)
    (v w : CharString) (hc : (ValidateValues L c e).1 = true)
    (hv : v.length = f.max L) (hne : f.mustBeNonEmpty = true → v ≠ [])
    (hw : w.length = f.max L + 1) :
    ValidateValues L (f.set c v) e = (true, e) ∧
    ValidateValues L (f.set c w) e = (false, f.message L) := by
  have hc := (ValidateValues_fst_eq_true_iff L c e).mp hc
  obtain ⟨⟨n1, n2, n3⟩, ⟨b1, b2, b3, b4, b5, b6, b7, b8⟩, x1, x2, x3, x4, x5, x6, x7⟩ := hc
  have hw0 : w.length ≠ 0 := by omega
  rw [← List.length_pos, Nat.pos_iff_ne_zero] at n1 n2 n3
  constructor
  · apply ValidateValues_eq_true_of_withinLimits
    cases f <;>
      refine ⟨⟨?_, ?_, ?_⟩, ⟨?_, ?_, ?_, ?_, ?_, ?_, ?_, ?_⟩, x1, x2, x3, x4, x5, x6, x7⟩ <;>
      simp only [BoundedField.set, BoundedField.max, BoundedField.mustBeNonEmpty] at * <;>
      first
        | assumption
        | omega
        | exact hne rfl
        | (rw [← List.length_pos]; omega)
  · rw [ValidateValues_eq_firstViolated]
    cases f <;>
      simp only [BoundedField.set, BoundedField.max, BoundedField.message] at * <;>
      simp only [checks, firstViolated] <;>
      simp only [n1, n2, n3, hw0, if_false, Nat.add_one_ne_zero, gt_iff_lt,
        Nat.not_lt.mpr b1, Nat.not_lt.mpr b2,
        Nat.not_lt.mpr b3, Nat.not_lt.mpr b4, Nat.not_lt.mpr b5, Nat.not_lt.mpr b6,
        Nat.not_lt.mpr b7, Nat.not_lt.mpr b8, hw, Nat.lt_succ_self, if_true]

/-- An instance of C8: a subject of three bytes passes and one of four bytes fails under a maximum
of three. -/
theorem ValidateValues_length_boundary_witness :
    ValidateValues exampleLimits { exampleCertificate with Subject := [1, 2, 3] } ""
      = (true, "") ∧
    ValidateValues exampleLimits { exampleCertificate with Subject := [1, 2, 3, 4] } ""
      = (false, "Invalid Subject full path name. Can not have more than 3 characters.") :=
  ValidateValues_length_boundary exampleLimits exampleCertificate "" .Subject [1, 2, 3] [1, 2, 3, 4]
    (by decide) (by decide) (by decide) (by decide)

/-- C9. Extension-list boundary: starting from a valid record, an extension list of exactly
`MAX_CERTIFICATE_EXTENSION_RECORDS` elements, each at most `MAX_CERTIFICATE_EXTENSION_LENGTH`
long, validates; one element more fails with that list's "records" message; and a list within
the record count holding an element one byte over the element maximum fails with that list's
"characters" message. -/
theorem ValidateValues_extension_boundary (L : Limits) (c : CCertificate) (e : String)
    (x : ExtensionList)
    (l₁ l₂ l₃ : vCharString) (hc : (ValidateValues L c e).1 = true)
    (h₁ : l₁.length = L.MAX_CERTIFICATE_EXTENSION_RECORDS)
    (h₁' : ∀ v ∈ l₁, v.length ≤ L.MAX_CERTIFICATE_EXTENSION_LENGTH)
    (h₂ : l₂.length = L.MAX_CERTIFICATE_EXTENSION_RECORDS + 1)
    (h₃ : l₃.length ≤ L.MAX_CERTIFICATE_EXTENSION_RECORDS)
    (h₃' : ∃ v ∈ l₃, v.length = L.MAX_CERTIFICATE_EXTENSION_LENGTH + 1) :
    ValidateValues L (x.set c l₁) e = (true, e) ∧
    ValidateValues L (x.set c l₂) e = (false, x.recordsMessage L) ∧
    ValidateValues L (x.set c l₃) e = (false, x.charactersMessage L) := by
  have hc := (ValidateValues_fst_eq_true_iff L c e).mp hc
  obtain ⟨⟨n1, n2, n3⟩, ⟨b1, b2, b3, b4, b5, b6, b7, b8⟩, x1, x2, x3, x4, x5, x6, x7⟩ := hc
  rw [← List.length_pos, Nat.pos_iff_ne_zero] at n1 n2 n3
  have t1 := (tooLongElement_eq_false_iff _ _).mpr x1.2
  have t2 := (tooLongElement_eq_false_iff _ _).mpr x2.2
  have t3 := (tooLongElement_eq_false_iff _ _).mpr x3.2
  have t4 := (tooLongElement_eq_false_iff _ _).mpr x4.2
  have t5 := (tooLongElement_eq_false_iff _ _).mpr x5.2
  have t6 := (tooLongElement_eq_false_iff _ _).mpr x6.2
  have t7 := (tooLongElement_eq_false_iff _ _).mpr x7.2
  obtain ⟨v₃, hv₃, hlen₃⟩ := h₃'
  have t₃ := tooLongElement_eq_true_of_mem L.MAX_CERTIFICATE_EXTENSION_LENGTH l₃ v₃ hv₃
    (by omega)
  refine ⟨?_, ?_, ?_⟩
  · apply ValidateValues_eq_true_of_withinLimits
    have hrest : (c.Subject ≠ [] ∧ c.SubjectSignature ≠ [] ∧ c.PublicKey ≠ []) :=
      ⟨by rwa [ne_eq, ← List.length_eq_zero], by rwa [ne_eq, ← List.length_eq_zero],
        by rwa [ne_eq, ← List.length_eq_zero]⟩
    cases x <;>
      exact ⟨hrest, ⟨b1, b2, b3, b4, b5, b6, b7, b8⟩,
        by first | exact x1 | exact ⟨h₁.le, h₁'⟩, by first | exact x2 | exact ⟨h₁.le, h₁'⟩,
        by first | exact x3 | exact ⟨h₁.le, h₁'⟩, by first | exact x4 | exact ⟨h₁.le, h₁'⟩,
        by first | exact x5 | exact ⟨h₁.le, h₁'⟩, by first | exact x6 | exact ⟨h₁.le, h₁'⟩,
        by first | exact x7 | exact ⟨h₁.le, h₁'⟩⟩
  · rw [ValidateValues_eq_firstViolated]
    cases x <;>
      simp only [ExtensionList.set, ExtensionList.recordsMessage, checks, firstViolated] <;>
      simp only [n1, n2, n3, if_false, gt_iff_lt, Nat.not_lt.mpr b1, Nat.not_lt.mpr b2,
        Nat.not_lt.mpr b3, Nat.not_lt.mpr b4, Nat.not_lt.mpr b5, Nat.not_lt.mpr b6,
        Nat.not_lt.mpr b7, Nat.not_lt.mpr b8, Nat.not_lt.mpr x1.1, Nat.not_lt.mpr x2.1,
        Nat.not_lt.mpr x3.1, Nat.not_lt.mpr x4.1, Nat.not_lt.mpr x5.1, Nat.not_lt.mpr x6.1,
        Nat.not_lt.mpr x7.1, t1, t2, t3, t4, t5, t6, t7, Bool.false_eq_true, h₂,
        Nat.lt_succ_self, if_true]
  · rw [ValidateValues_eq_firstViolated]
    cases x <;>
      simp only [ExtensionList.set, ExtensionList.charactersMessage, checks, firstViolated] <;>
      simp only [n1, n2, n3, if_false, gt_iff_lt, Nat.not_lt.mpr b1, Nat.not_lt.mpr b2,
        Nat.not_lt.mpr b3, Nat.not_lt.mpr b4, Nat.not_lt.mpr b5, Nat.not_lt.mpr b6,
        Nat.not_lt.mpr b7, Nat.not_lt.mpr b8, Nat.not_lt.mpr x1.1, Nat.not_lt.mpr x2.1,
        Nat.not_lt.mpr x3.1, Nat.not_lt.mpr x4.1, Nat.not_lt.mpr x5.1, Nat.not_lt.mpr x6.1,
        Nat.not_lt.mpr x7.1, t1, t2, t3, t4, t5, t6, t7, Bool.false_eq_true, Nat.not_lt.mpr h₃,
        t₃, if_true]

/-- An instance of C9: the Policies list under a maximum of two records of one byte. -/
theorem ValidateValues_extension_boundary_witness :
    ValidateValues exampleLimits { exampleCertificate with Policies := [[1], []] } ""
      = (true, "") ∧
    ValidateValues exampleLimits { exampleCertificate with Policies := [[], [], []] } ""
      = (false, "Invalid Policies size. Can not have more than 2 records.") ∧
    ValidateValues exampleLimits { exampleCertificate with Policies := [[1, 2]] } ""
      = (false, "Invalid Policies. Can not have more than 1 characters.") :=
  ValidateValues_extension_boundary exampleLimits exampleCertificate "" .Policies [[1], []] [[], [], []]
    [[1, 2]] (by decide) (by decide) (by decide) (by decide) (by decide) (by decide)

/-! ## Hash domains (C10) -/

/-- C10. Subject hash domain: `GetSubjectHash r` is the digest of the concatenated stream
encodings of SignatureAlgorithm, SignatureHashAlgorithm, Subject, SerialNumber, KeyUsage,
ExtendedKeyUsage, AuthorityInformationAccess, SubjectAlternativeName, Policies,
CRLDistributionPoints and SCTList, in that order, so two records that agree on these fields have
the same subject hash. -/
theorem GetSubjectHash_domain (Hash : List Byte → uint256) (r r' : CCertificate)
    (h : SubjectFieldsAgree r r') :
    GetSubjectHash Hash r =
      Hash (writeCharString r.SignatureAlgorithm ++ writeCharString r.SignatureHashAlgorithm ++
        writeCharString r.Subject ++ leBytes 8 r.SerialNumber ++
        writeVCharString r.KeyUsage ++ writeVCharString r.ExtendedKeyUsage ++
        writeVCharString r.AuthorityInformationAccess ++
        writeVCharString r.SubjectAlternativeName ++ writeVCharString r.Policies ++
        writeVCharString r.CRLDistributionPoints ++ writeVCharString r.SCTList) ∧
    GetSubjectHash Hash r = GetSubjectHash Hash r' := by
  obtain ⟨h1, h2, h3, h4, h5, h6, h7, h8, h9, h10, h11⟩ := h
  refine ⟨rfl, ?_⟩
  unfold GetSubjectHash
  rw [h1, h2, h3, h4, h5, h6, h7, h8, h9, h10, h11]

/-- An instance of C10: changing issuer, public key and months valid leaves the subject hash
unchanged. -/
theorem GetSubjectHash_domain_witness :
    GetSubjectHash exampleHash exampleCertificate =
      GetSubjectHash exampleHash
        { exampleCertificate with Issuer := [99], PublicKey := [1, 2], MonthsValid := 3 } :=
  (GetSubjectHash_domain exampleHash exampleCertificate
    { exampleCertificate with Issuer := [99], PublicKey := [1, 2], MonthsValid := 3 }
    ⟨rfl, rfl, rfl, rfl, rfl, rfl, rfl, rfl, rfl, rfl, rfl⟩).2


/-! ## Hash domains: auxiliary lemmas -/

theorem GetSubjectHash_eq_Hash_stream (Hash : List Byte → uint256) (c : CCertificate) :
    GetSubjectHash Hash c = Hash (SubjectHashStream c) := rfl

theorem GetIssuerHash_eq_Hash_stream (Hash : List Byte → uint256) (c : CCertificate) :
    GetIssuerHash Hash c = Hash (IssuerHashStream c) := rfl

theorem writeCharString_injective (a b : CharString) (ha : a.length < 2 ^ 64)
    (hb : b.length < 2 ^ 64) (h : writeCharString a = writeCharString b) : a = b := by
  have h1 := readCharString_write a [] ha
  have h2 := readCharString_write b [] hb
  rw [List.append_nil] at h1 h2
  rw [h, h2] at h1
  simp only [Option.some.injEq, Prod.mk.injEq, and_true] at h1
  exact h1.symm

theorem SubjectHashStream_subject_ne (r : CCertificate) (v : CharString)
    (hr : r.Subject.length < 2 ^ 64) (hv : v.length < 2 ^ 64) (hne : v ≠ r.Subject) :
    SubjectHashStream { r with Subject := v } ≠ SubjectHashStream r := by
  intro h
  simp only [SubjectHashStream, List.append_assoc, List.append_cancel_left_eq,
    List.append_cancel_right_eq] at h
  exact hne (writeCharString_injective v r.Subject hv hr h)

theorem IssuerHashStream_subject_ne (r : CCertificate) (v : CharString)
    (hr : r.Subject.length < 2 ^ 64) (hv : v.length < 2 ^ 64) (hne : v ≠ r.Subject) :
    IssuerHashStream { r with Subject := v } ≠ IssuerHashStream r := by
  intro h
  simp only [IssuerHashStream, List.append_assoc, List.append_cancel_left_eq,
    List.append_cancel_right_eq] at h
  exact hne (writeCharString_injective v r.Subject hv hr h)

theorem IssuerHashStream_issuer_ne (r : CCertificate) (v : CharString)
    (hr : r.Issuer.length < 2 ^ 64) (hv : v.length < 2 ^ 64) (hne : v ≠ r.Issuer) :
    IssuerHashStream { r with Issuer := v } ≠ IssuerHashStream r := by
  intro h
  simp only [IssuerHashStream, List.append_assoc, List.append_cancel_left_eq,
    List.append_cancel_right_eq] at h
  exact hne (writeCharString_injective v r.Issuer hv hr h)

theorem IssuerHashStream_publicKey_ne (r : CCertificate) (v : CharString)
    (hr : r.PublicKey.length < 2 ^ 64) (hv : v.length < 2 ^ 64) (hne : v ≠ r.PublicKey) :
    IssuerHashStream { r with PublicKey := v } ≠ IssuerHashStream r := by
  intro h
  simp only [IssuerHashStream, List.append_assoc, List.append_cancel_left_eq,
    List.append_cancel_right_eq] at h
  exact hne (writeCharString_injective v r.PublicKey hv hr h)

theorem IssuerHashStream_subjectSignature_ne (r : CCertificate) (v : CharString)
    (hr : r.SubjectSignature.length < 2 ^ 64) (hv : v.length < 2 ^ 64)
    (hne : v ≠ r.SubjectSignature) :
    IssuerHashStream { r with SubjectSignature := v } ≠ IssuerHashStream r := by
  intro h
  simp only [IssuerHashStream, List.append_assoc, List.append_cancel_left_eq,
    List.append_cancel_right_eq] at h
  exact hne (writeCharString_injective v r.SubjectSignature hv hr h)

/-! ## Signatures: auxiliary lemmas -/

theorem signatureAt_val (s : Signature) : signatureAt s.val = some s := by
  have h : 64 ≤ s.val.length := by rw [s.property]
  unfold signatureAt
  rw [dif_pos h]
  congr 1
  apply Subtype.ext
  exact List.take_of_length_le (by rw [s.property])

theorem signatureAt_eq_none (v : List Byte) (h : v.length < 64) : signatureAt v = none := by
  unfold signatureAt
  rw [dif_neg (by omega)]

theorem CheckSubjectSignature_eq (ed : Ed25519) (Hash : List Byte → uint256)
    (self : CCertificate) (vchPubKey : List Byte) :
    CheckSubjectSignature ed Hash self vchPubKey =
      (signatureAt self.SubjectSignature).map fun sig =>
        ed.ed25519_verify sig (vchFromString (GetHex (GetSubjectHash Hash self))) vchPubKey := by
  unfold CheckSubjectSignature uint256.ToString
  cases signatureAt self.SubjectSignature with
  | none => rfl
  | some sig =>
    simp only [Option.map_some']
    cases ed.ed25519_verify sig (vchFromString (GetHex (GetSubjectHash Hash self))) vchPubKey <;>
      rfl

theorem CheckIssuerSignature_eq (ed : Ed25519) (Hash : List Byte → uint256)
    (self : CCertificate) (vchPubKey : List Byte) :
    CheckIssuerSignature ed Hash self vchPubKey =
      (signatureAt self.SignatureValue).map fun sig =>
        ed.ed25519_verify sig (vchFromString (GetHex (GetIssuerHash Hash self))) vchPubKey := by
  unfold CheckIssuerSignature uint256.ToString
  cases signatureAt self.SignatureValue with
  | none => rfl
  | some sig =>
    simp only [Option.map_some']
    cases ed.ed25519_verify sig (vchFromString (GetHex (GetIssuerHash Hash self))) vchPubKey <;>
      rfl

theorem hexDigits_length (k n : Nat) : (hexDigits k n).length = k := by
  induction k generalizing n with
  | zero => rfl
  | succ j ih => simp [hexDigits, ih]

theorem hexChar_isLowerHexByte :
    ∀ d : Fin 16, IsLowerHexByte ⟨(hexChar d.val).toNat % 256, Nat.mod_lt _ (by decide)⟩ := by
  decide

theorem vchFromString_hexDigits_isLowerHex (k n : Nat) :
    ∀ b ∈ vchFromString (String.mk (hexDigits k n)), IsLowerHexByte b := by
  induction k generalizing n with
  | zero => intro b hb; simp [vchFromString, hexDigits] at hb
  | succ j ih =>
    intro b hb
    simp only [vchFromString, hexDigits, List.map_append, List.map_cons, List.map_nil,
      List.mem_append, List.mem_singleton] at hb ih
    rcases hb with hb | hb
    · exact ih (n / 16) b hb
    · rw [hb]
      exact hexChar_isLowerHexByte ⟨n % 16, Nat.mod_lt _ (by decide)⟩

theorem vchFromString_GetHex_length (h : uint256) : (vchFromString (GetHex h)).length = 64 := by
  simp [vchFromString, GetHex, hexDigits_length]

theorem vchFromString_GetHex_isLowerHex (h : uint256) :
    ∀ b ∈ vchFromString (GetHex h), IsLowerHexByte b :=
  vchFromString_hexDigits_isLowerHex 64 h.val

theorem vchFromString_GetHex_ne_raw (h : uint256) : vchFromString (GetHex h) ≠ writeUint256 h := by
  intro heq
  have h1 := congrArg List.length heq
  rw [vchFromString_GetHex_length, writeUint256, leBytes_length] at h1
  omega

/-! ## Ledger linkage: auxiliary lemmas -/

theorem UnserializeFromTx_of_decoded {Tx : Type} (ledger : Ledger Tx)
    (Hash : List Byte → uint256) (self : CCertificate) (tx : Tx) (height : Nat)
    (vchData vchHash : List Byte) (nOut : Int) (decoded : CCertificate)
    (hdata : ledger.GetBDAPData tx = some (vchData, vchHash, nOut))
    (hdec : UnserializeFromData Hash self vchData vchHash = (true, decoded)) :
    UnserializeFromTx ledger Hash self tx height =
      match ledger.GetBDAPOpScript tx with
      | none => (true, decoded)
      | some (op1, op2) =>
        if ledger.GetBDAPOpTypeString op1 op2 = "bdap_new_certificate" then
          (true, { decoded with txHashRequest := ledger.GetHash tx, nHeightRequest := height })
        else if ledger.GetBDAPOpTypeString op1 op2 = "bdap_approve_certificate" then
          (true, { decoded with txHashApprove := ledger.GetHash tx, nHeightApprove := height })
        else
          (true, decoded) := by
  unfold UnserializeFromTx
  rw [hdata]
  simp only []
  rw [hdec]
  rfl

/-! ## Hash domains (C11, C12) -/

/-- C11. Hash domain independence: replacing issuer or publicKey by a different value changes
the bytes `GetIssuerHash` hashes (hence the issuer hash, for a digest function with no collision
on the inputs involved) and leaves `GetSubjectHash` unchanged; replacing subject by a different
value changes the bytes both functions hash (hence both hashes). The records and values have
members in the range of their C++ types. -/
theorem hash_domain_independence (Hash : List Byte → uint256) (r : CCertificate)
    (issuer publicKey subject : CharString) (hr : r.InRange)
    (hil : issuer.length < 2 ^ 64) (hpl : publicKey.length < 2 ^ 64)
    (hsl : subject.length < 2 ^ 64)
    (hi : issuer ≠ r.Issuer) (hp : publicKey ≠ r.PublicKey) (hs : subject ≠ r.Subject)
    (hfree : CollisionFreeOn Hash
      [IssuerHashStream r, IssuerHashStream { r with Issuer := issuer },
        IssuerHashStream { r with PublicKey := publicKey },
        IssuerHashStream { r with Subject := subject },
        SubjectHashStream r, SubjectHashStream { r with Subject := subject }]) :
    (IssuerHashStream { r with Issuer := issuer } ≠ IssuerHashStream r ∧
      GetIssuerHash Hash { r with Issuer := issuer } ≠ GetIssuerHash Hash r ∧
      GetSubjectHash Hash { r with Issuer := issuer } = GetSubjectHash Hash r) ∧
    (IssuerHashStream { r with PublicKey := publicKey } ≠ IssuerHashStream r ∧
      GetIssuerHash Hash { r with PublicKey := publicKey } ≠ GetIssuerHash Hash r ∧
      GetSubjectHash Hash { r with PublicKey := publicKey } = GetSubjectHash Hash r) ∧
    (SubjectHashStream { r with Subject := subject } ≠ SubjectHashStream r ∧
      GetSubjectHash Hash { r with Subject := subject } ≠ GetSubjectHash Hash r ∧
      IssuerHashStream { r with Subject := subject } ≠ IssuerHashStream r ∧
      GetIssuerHash Hash { r with Subject := subject } ≠ GetIssuerHash Hash r) := by
  obtain ⟨-, ⟨-, -, -, b4, -, b6, b7, -⟩, -⟩ := hr
  have n1 := IssuerHashStream_issuer_ne r issuer b6 hil hi
  have n2 := IssuerHashStream_publicKey_ne r publicKey b7 hpl hp
  have n3 := SubjectHashStream_subject_ne r subject b4 hsl hs
  have n4 := IssuerHashStream_subject_ne r subject b4 hsl hs
  refine ⟨⟨n1, ?_, rfl⟩, ⟨n2, ?_, rfl⟩, n3, ?_, n4, ?_⟩
  · intro h
    exact n1 (hfree _ (by simp) _ (by simp) h)
  · intro h
    exact n2 (hfree _ (by simp) _ (by simp) h)
  · intro h
    exact n3 (hfree _ (by simp) _ (by simp) h)
  · intro h
    exact n4 (hfree _ (by simp) _ (by simp) h)

/-- An instance of C11: the example record with issuer, public key and subject replaced, under the
example digest. -/
theorem hash_domain_independence_witness :
    (GetIssuerHash exampleHash { exampleCertificate with Issuer := [99] }
        ≠ GetIssuerHash exampleHash exampleCertificate ∧
      GetSubjectHash exampleHash { exampleCertificate with Issuer := [99] }
        = GetSubjectHash exampleHash exampleCertificate) ∧
    (GetSubjectHash exampleHash { exampleCertificate with Subject := [98] }
        ≠ GetSubjectHash exampleHash exampleCertificate ∧
      GetIssuerHash exampleHash { exampleCertificate with Subject := [98] }
        ≠ GetIssuerHash exampleHash exampleCertificate) :=
  have h := hash_domain_independence exampleHash exampleCertificate [99] [1, 2] [98]
    (by decide) (by decide) (by decide) (by decide) (by decide) (by decide) (by decide)
    (by decide)
  ⟨⟨h.1.2.1, h.1.2.2⟩, h.2.2.2.1, h.2.2.2.2.2⟩

/-- C12. Issuer hash chains to the subject signature: `GetIssuerHash r` is the digest of the
stream encodings of SignatureAlgorithm, SignatureHashAlgorithm, MonthsValid, Subject,
SubjectSignature, Issuer, PublicKey, SerialNumber and the seven extension lists in that order;
two records that differ only in SubjectSignature have different issuer-hash inputs (hence
different issuer hashes when the digest function has no collision on them) and equal subject
hashes. -/
theorem GetIssuerHash_domain (Hash : List Byte → uint256) (r : CCertificate)
    (sig : CharString) (hr : r.SubjectSignature.length < 2 ^ 64) (hsl : sig.length < 2 ^ 64)
    (hs : sig ≠ r.SubjectSignature)
    (hfree : CollisionFreeOn Hash
      [IssuerHashStream r, IssuerHashStream { r with SubjectSignature := sig }]) :
    GetIssuerHash Hash r =
      Hash (writeCharString r.SignatureAlgorithm ++ writeCharString r.SignatureHashAlgorithm ++
        leBytes 2 r.MonthsValid ++ writeCharString r.Subject ++
        writeCharString r.SubjectSignature ++ writeCharString r.Issuer ++
        writeCharString r.PublicKey ++ leBytes 8 r.SerialNumber ++
        writeVCharString r.KeyUsage ++ writeVCharString r.ExtendedKeyUsage ++
        writeVCharString r.AuthorityInformationAccess ++
        writeVCharString r.SubjectAlternativeName ++ writeVCharString r.Policies ++
        writeVCharString r.CRLDistributionPoints ++ writeVCharString r.SCTList) ∧
    IssuerHashStream { r with SubjectSignature := sig } ≠ IssuerHashStream r ∧
    GetIssuerHash Hash { r with SubjectSignature := sig } ≠ GetIssuerHash Hash r ∧
    GetSubjectHash Hash { r with SubjectSignature := sig } = GetSubjectHash Hash r := by
  have n1 := IssuerHashStream_subjectSignature_ne r sig hr hsl hs
  refine ⟨rfl, n1, ?_, rfl⟩
  intro h
  exact n1 (hfree _ (by simp) _ (by simp) h)

/-- An instance of C12: the example record with another subject signature. -/
theorem GetIssuerHash_domain_witness :
    GetIssuerHash exampleHash { exampleCertificate with SubjectSignature := [9, 9] }
      ≠ GetIssuerHash exampleHash exampleCertificate ∧
    GetSubjectHash exampleHash { exampleCertificate with SubjectSignature := [9, 9] }
      = GetSubjectHash exampleHash exampleCertificate :=
  have h := GetIssuerHash_domain exampleHash exampleCertificate [9, 9]
    (by decide) (by decide) (by decide) (by decide)
  ⟨h.2.2.1, h.2.2.2⟩

/-! ## Signatures (C13 to C17) -/

/-- C13. Subject signature correctness: for every record and every key pair for which the
signature scheme verifies what it signs, `CheckSubjectSignature pub` returns `true` on the record
that `SignSubject pub priv` leaves. -/
theorem CheckSubjectSignature_SignSubject (ed : Ed25519) (Hash : List Byte → uint256)
    (r : CCertificate) (vchPubKey vchPrivKey : List Byte)
    (hkey : ∀ msg, ed.ed25519_verify (ed.ed25519_sign msg vchPubKey vchPrivKey) msg vchPubKey
      = true) :
    CheckSubjectSignature ed Hash (SignSubject ed Hash r vchPubKey vchPrivKey).2 vchPubKey
      = some true := by
  rw [CheckSubjectSignature_eq]
  simp only [SignSubject, signatureAt_val, Option.map_some', Option.some.injEq]
  exact hkey _

/-- An instance of C13: signing and checking the example record under the example scheme with the
key pair ([1, 2, 3], [1, 2, 3]). -/
theorem CheckSubjectSignature_SignSubject_witness :
    CheckSubjectSignature exampleEd25519 exampleHash
      (SignSubject exampleEd25519 exampleHash exampleCertificate [1, 2, 3] [1, 2, 3]).2
      [1, 2, 3] = some true :=
  CheckSubjectSignature_SignSubject exampleEd25519 exampleHash exampleCertificate
    [1, 2, 3] [1, 2, 3] (fun _ => by simp [exampleEd25519])

/-- C14. Issuer signature correctness: `SignIssuer` returns `true` and stores in `SignatureValue`
the signature of the hex string of `GetIssuerHash` (the pattern of `SignSubject`, over the issuer
hash), and for every key pair for which the signature scheme verifies what it signs,
`CheckIssuerSignature pub` returns `true` on the record that `SignIssuer pub priv` leaves. -/
theorem CheckIssuerSignature_SignIssuer (ed : Ed25519) (Hash : List Byte → uint256)
    (r : CCertificate) (vchPubKey vchPrivKey : List Byte)
    (hkey : ∀ msg, ed.ed25519_verify (ed.ed25519_sign msg vchPubKey vchPrivKey) msg vchPubKey
      = true) :
    SignIssuer ed Hash r vchPubKey vchPrivKey =
      (true, { r with SignatureValue := (ed.ed25519_sign
        (vchFromString (uint256.ToString (GetIssuerHash Hash r))) vchPubKey vchPrivKey).val }) ∧
    CheckIssuerSignature ed Hash (SignIssuer ed Hash r vchPubKey vchPrivKey).2 vchPubKey
      = some true := by
  refine ⟨rfl, ?_⟩
  rw [CheckIssuerSignature_eq]
  simp only [SignIssuer, signatureAt_val, Option.map_some', Option.some.injEq]
  exact hkey _

/-- An instance of C14: signing and checking the example record under the example scheme with the
key pair ([4, 5], [4, 5]). -/
theorem CheckIssuerSignature_SignIssuer_witness :
    CheckIssuerSignature exampleEd25519 exampleHash
      (SignIssuer exampleEd25519 exampleHash exampleCertificate [4, 5] [4, 5]).2
      [4, 5] = some true :=
  (CheckIssuerSignature_SignIssuer exampleEd25519 exampleHash exampleCertificate
    [4, 5] [4, 5] (fun _ => by simp [exampleEd25519])).2

/-- C15, at the null record: its `SubjectSignature` and `SignatureValue` are empty, so the
64-byte read of `ed25519_verify` through `&SubjectSignature[0]` (resp. `&SignatureValue[0]`) runs
past the end of the vector, and neither `CheckSubjectSignature` nor `CheckIssuerSignature` has a
defined result, for any signature scheme, digest function and public key. -/
theorem CheckSignature_null_record (ed : Ed25519) (Hash : List Byte → uint256)
    (self : CCertificate) (vchPubKey : List Byte) :
    CheckSubjectSignature ed Hash (SetNull self) vchPubKey = none ∧
    CheckIssuerSignature ed Hash (SetNull self) vchPubKey = none := by
  rw [CheckSubjectSignature_eq, CheckIssuerSignature_eq]
  exact ⟨rfl, rfl⟩

/-- C16. Signed message encoding: `SignSubject` signs, and `CheckSubjectSignature` verifies, the
same byte string for the same record (signing does not change the subject hash): the bytes of
the hex string of the subject hash, which are 64 ASCII characters `0`-`9`, `a`-`f` and not the
32 raw bytes of the digest; likewise `SignIssuer` and `CheckIssuerSignature` over the issuer
hash. -/
theorem signed_message_encoding (ed : Ed25519) (Hash : List Byte → uint256)
    (r : CCertificate) (vchPubKey vchPrivKey : List Byte) :
    ((SignSubject ed Hash r vchPubKey vchPrivKey).2.SubjectSignature =
        (ed.ed25519_sign (vchFromString (GetHex (GetSubjectHash Hash r)))
          vchPubKey vchPrivKey).val ∧
      CheckSubjectSignature ed Hash r vchPubKey =
        (signatureAt r.SubjectSignature).map (fun sig =>
          ed.ed25519_verify sig (vchFromString (GetHex (GetSubjectHash Hash r))) vchPubKey) ∧
      GetSubjectHash Hash (SignSubject ed Hash r vchPubKey vchPrivKey).2 =
        GetSubjectHash Hash r ∧
      (vchFromString (GetHex (GetSubjectHash Hash r))).length = 64 ∧
      (∀ b ∈ vchFromString (GetHex (GetSubjectHash Hash r)), IsLowerHexByte b) ∧
      vchFromString (GetHex (GetSubjectHash Hash r)) ≠ writeUint256 (GetSubjectHash Hash r)) ∧
    ((SignIssuer ed Hash r vchPubKey vchPrivKey).2.SignatureValue =
        (ed.ed25519_sign (vchFromString (GetHex (GetIssuerHash Hash r)))
          vchPubKey vchPrivKey).val ∧
      CheckIssuerSignature ed Hash r vchPubKey =
        (signatureAt r.SignatureValue).map (fun sig =>
          ed.ed25519_verify sig (vchFromString (GetHex (GetIssuerHash Hash r))) vchPubKey) ∧
      GetIssuerHash Hash (SignIssuer ed Hash r vchPubKey vchPrivKey).2 =
        GetIssuerHash Hash r ∧
      (vchFromString (GetHex (GetIssuerHash Hash r))).length = 64 ∧
      (∀ b ∈ vchFromString (GetHex (GetIssuerHash Hash r)), IsLowerHexByte b) ∧
      vchFromString (GetHex (GetIssuerHash Hash r)) ≠ writeUint256 (GetIssuerHash Hash r)) :=
  ⟨⟨rfl, CheckSubjectSignature_eq ed Hash r vchPubKey, rfl, vchFromString_GetHex_length _,
      vchFromString_GetHex_isLowerHex _, vchFromString_GetHex_ne_raw _⟩,
    ⟨rfl, CheckIssuerSignature_eq ed Hash r vchPubKey, rfl, vchFromString_GetHex_length _,
      vchFromString_GetHex_isLowerHex _, vchFromString_GetHex_ne_raw _⟩⟩

/-- C17. `SignSubject` effect: it returns `true`, sets `SubjectSignature` to a byte string of
exactly 64 bytes, and leaves every other field unchanged, `SignatureValue` and the four linkage
fields among them. -/
theorem SignSubject_effect (ed : Ed25519) (Hash : List Byte → uint256)
    (r : CCertificate) (vchPubKey vchPrivKey : List Byte) :
    (SignSubject ed Hash r vchPubKey vchPrivKey).1 = true ∧
    (SignSubject ed Hash r vchPubKey vchPrivKey).2.SubjectSignature.length = 64 ∧
    (SignSubject ed Hash r vchPubKey vchPrivKey).2 =
      { r with SubjectSignature :=
          (SignSubject ed Hash r vchPubKey vchPrivKey).2.SubjectSignature } ∧
    (SignSubject ed Hash r vchPubKey vchPrivKey).2.SignatureValue = r.SignatureValue ∧
    (SignSubject ed Hash r vchPubKey vchPrivKey).2.txHashRequest = r.txHashRequest ∧
    (SignSubject ed Hash r vchPubKey vchPrivKey).2.nHeightRequest = r.nHeightRequest ∧
    (SignSubject ed Hash r vchPubKey vchPrivKey).2.txHashApprove = r.txHashApprove ∧
    (SignSubject ed Hash r vchPubKey vchPrivKey).2.nHeightApprove = r.nHeightApprove :=
  ⟨rfl, (ed.ed25519_sign _ vchPubKey vchPrivKey).property, rfl, rfl, rfl, rfl, rfl, rfl⟩

/-! ## Ledger linkage (C18 to C20) -/

/-- C18. Resolver, request transition: when the payload is found, decodes (to `decoded`), and
the operation classifies as "bdap_new_certificate", `UnserializeFromTx` returns `true`, sets
`txHashRequest` to the hash of the transaction and `nHeightRequest` to the height, and leaves
`txHashApprove` and `nHeightApprove` as decoded, so the record is approved exactly if it was
before. -/
theorem UnserializeFromTx_new_certificate {Tx : Type} (ledger : Ledger Tx)
    (Hash : List Byte → uint256) (self : CCertificate) (tx : Tx) (height : Nat)
    (vchData vchHash : List Byte) (nOut : Int) (decoded : CCertificate) (op1 op2 : Int)
    (hdata : ledger.GetBDAPData tx = some (vchData, vchHash, nOut))
    (hdec : UnserializeFromData Hash self vchData vchHash = (true, decoded))
    (hop : ledger.GetBDAPOpScript tx = some (op1, op2))
    (htype : ledger.GetBDAPOpTypeString op1 op2 = "bdap_new_certificate") :
    UnserializeFromTx ledger Hash self tx height =
      (true, { decoded with txHashRequest := ledger.GetHash tx, nHeightRequest := height }) ∧
    (UnserializeFromTx ledger Hash self tx height).2.txHashRequest = ledger.GetHash tx ∧
    (UnserializeFromTx ledger Hash self tx height).2.nHeightRequest = height ∧
    (UnserializeFromTx ledger Hash self tx height).2.txHashApprove = decoded.txHashApprove ∧
    (UnserializeFromTx ledger Hash self tx height).2.nHeightApprove = decoded.nHeightApprove ∧
    IsApproved (UnserializeFromTx ledger Hash self tx height).2 = IsApproved decoded := by
  have h := UnserializeFromTx_of_decoded ledger Hash self tx height vchData vchHash nOut
    decoded hdata hdec
  rw [hop] at h
  simp only [htype, if_true] at h
  rw [h]
  exact ⟨rfl, rfl, rfl, rfl, rfl, rfl⟩

/-- An instance of C18: a "new certificate" transaction at height 100 on the example ledger. -/
theorem UnserializeFromTx_new_certificate_witness :
    (UnserializeFromTx exampleLedger exampleHash (SetNull exampleCertificate) 1 100).1 = true ∧
    (UnserializeFromTx exampleLedger exampleHash (SetNull exampleCertificate) 1 100).2.txHashRequest
      = 1 ∧
    (UnserializeFromTx exampleLedger exampleHash (SetNull exampleCertificate)
      1 100).2.nHeightRequest
      = 100 ∧
    (UnserializeFromTx exampleLedger exampleHash (SetNull exampleCertificate)
      1 100).2.nHeightApprove
      = 0 ∧
    IsApproved (UnserializeFromTx exampleLedger exampleHash (SetNull exampleCertificate) 1 100).2
      = false :=
  have h := UnserializeFromTx_new_certificate exampleLedger exampleHash
    (SetNull exampleCertificate) 1 100 (Serialize exampleCertificate)
    (vchFromValue (GetHex (GetHash exampleHash exampleCertificate))) 0 exampleCertificate 1 0
    (by rfl) (by rfl) (by rfl) (by rfl)
  ⟨by rw [h.1], h.2.1, h.2.2.1, h.2.2.2.2.1, h.2.2.2.2.2⟩

/-- C19, as amended. Resolver, approve transition: when the payload is found, decodes (to
`decoded`), and the operation classifies as "bdap_approve_certificate", `UnserializeFromTx`
returns `true`, sets `txHashApprove` to the hash of the transaction and `nHeightApprove` to the
height, and leaves `txHashRequest` and `nHeightRequest` as decoded; afterwards `IsApproved` holds
exactly when the height is not zero. -/
theorem UnserializeFromTx_approve_certificate {Tx : Type} (ledger : Ledger Tx)
    (Hash : List Byte → uint256) (self : CCertificate) (tx : Tx) (height : Nat)
    (vchData vchHash : List Byte) (nOut : Int) (decoded : CCertificate) (op1 op2 : Int)
    (hdata : ledger.GetBDAPData tx = some (vchData, vchHash, nOut))
    (hdec : UnserializeFromData Hash self vchData vchHash = (true, decoded))
    (hop : ledger.GetBDAPOpScript tx = some (op1, op2))
    (htype : ledger.GetBDAPOpTypeString op1 op2 = "bdap_approve_certificate") :
    UnserializeFromTx ledger Hash self tx height =
      (true, { decoded with txHashApprove := ledger.GetHash tx, nHeightApprove := height }) ∧
    (UnserializeFromTx ledger Hash self tx height).2.txHashApprove = ledger.GetHash tx ∧
    (UnserializeFromTx ledger Hash self tx height).2.nHeightApprove = height ∧
    (UnserializeFromTx ledger Hash self tx height).2.txHashRequest = decoded.txHashRequest ∧
    (UnserializeFromTx ledger Hash self tx height).2.nHeightRequest = decoded.nHeightRequest ∧
    (IsApproved (UnserializeFromTx ledger Hash self tx height).2 = true ↔ height ≠ 0) := by
  have h := UnserializeFromTx_of_decoded ledger Hash self tx height vchData vchHash nOut
    decoded hdata hdec
  rw [hop] at h
  have hne : ¬ ("bdap_approve_certificate" = "bdap_new_certificate") := by decide
  simp only [htype, hne, if_false, if_true] at h
  rw [h]
  refine ⟨rfl, rfl, rfl, rfl, rfl, ?_⟩
  simp [IsApproved]

/-- An instance of C19: an "approve certificate" transaction at height 150 on the example ledger.
-/
theorem UnserializeFromTx_approve_certificate_witness :
    (UnserializeFromTx exampleLedger exampleHash (SetNull exampleCertificate) 2 150).1 = true ∧
    (UnserializeFromTx exampleLedger exampleHash (SetNull exampleCertificate) 2 150).2.txHashApprove
      = 2 ∧
    (UnserializeFromTx exampleLedger exampleHash (SetNull exampleCertificate)
      2 150).2.nHeightApprove
      = 150 ∧
    (UnserializeFromTx exampleLedger exampleHash (SetNull exampleCertificate)
      2 150).2.nHeightRequest
      = 100 ∧
    IsApproved (UnserializeFromTx exampleLedger exampleHash (SetNull exampleCertificate) 2 150).2
      = true :=
  have h := UnserializeFromTx_approve_certificate exampleLedger exampleHash
    (SetNull exampleCertificate) 2 150 (Serialize exampleCertificate)
    (vchFromValue (GetHex (GetHash exampleHash exampleCertificate))) 0 exampleCertificate 2 0
    (by rfl) (by rfl) (by rfl) (by rfl)
  ⟨by rw [h.1], h.2.1, h.2.2.1, h.2.2.2.2.1, h.2.2.2.2.2.mpr (by decide)⟩

/-- C19 as stated fails at height 0: on the example ledger the payload of transaction 2 is
found and decodes, the operation classifies as "bdap_approve_certificate", `UnserializeFromTx`
returns `true` and sets `txHashApprove`, and yet `IsApproved` does not hold afterwards. -/
theorem UnserializeFromTx_approve_height_zero_not_approved :
    exampleLedger.GetBDAPData 2 = some (Serialize exampleCertificate,
      vchFromValue (GetHex (GetHash exampleHash exampleCertificate)), 0) ∧
    UnserializeFromData exampleHash (SetNull exampleCertificate) (Serialize exampleCertificate)
      (vchFromValue (GetHex (GetHash exampleHash exampleCertificate)))
      = (true, exampleCertificate) ∧
    exampleLedger.GetBDAPOpScript 2 = some (2, 0) ∧
    exampleLedger.GetBDAPOpTypeString 2 0 = "bdap_approve_certificate" ∧
    (UnserializeFromTx exampleLedger exampleHash (SetNull exampleCertificate) 2 0).1 = true ∧
    (UnserializeFromTx exampleLedger exampleHash (SetNull exampleCertificate) 2 0).2.txHashApprove
      = exampleLedger.GetHash 2 ∧
    (UnserializeFromTx exampleLedger exampleHash (SetNull exampleCertificate) 2 0).2.nHeightApprove
      = 0 ∧
    ¬ (IsApproved (UnserializeFromTx exampleLedger exampleHash (SetNull exampleCertificate) 2 0).2
      = true) := by
  decide

/-- C20. Resolver, unrecognized operation: when the payload is found and decodes (to
`decoded`) but no operation script is found, or the operation type string is neither
"bdap_new_certificate" nor "bdap_approve_certificate", `UnserializeFromTx` returns `true` and the
record is the decoded one: all four linkage fields keep the values they had after decoding. -/
theorem UnserializeFromTx_unrecognized {Tx : Type} (ledger : Ledger Tx)
    (Hash : List Byte → uint256) (self : CCertificate) (tx : Tx) (height : Nat)
    (vchData vchHash : List Byte) (nOut : Int) (decoded : CCertificate)
    (hdata : ledger.GetBDAPData tx = some (vchData, vchHash, nOut))
    (hdec : UnserializeFromData Hash self vchData vchHash = (true, decoded))
    (hop : ledger.GetBDAPOpScript tx = none ∨
      ∃ op1 op2, ledger.GetBDAPOpScript tx = some (op1, op2) ∧
        ledger.GetBDAPOpTypeString op1 op2 ≠ "bdap_new_certificate" ∧
        ledger.GetBDAPOpTypeString op1 op2 ≠ "bdap_approve_certificate") :
    UnserializeFromTx ledger Hash self tx height = (true, decoded) ∧
    (UnserializeFromTx ledger Hash self tx height).2.txHashRequest = decoded.txHashRequest ∧
    (UnserializeFromTx ledger Hash self tx height).2.nHeightRequest = decoded.nHeightRequest ∧
    (UnserializeFromTx ledger Hash self tx height).2.txHashApprove = decoded.txHashApprove ∧
    (UnserializeFromTx ledger Hash self tx height).2.nHeightApprove = decoded.nHeightApprove := by
  have h := UnserializeFromTx_of_decoded ledger Hash self tx height vchData vchHash nOut
    decoded hdata hdec
  have h' : UnserializeFromTx ledger Hash self tx height = (true, decoded) := by
    rcases hop with hop | ⟨op1, op2, hop, h1, h2⟩
    · rw [hop] at h
      exact h
    · rw [hop] at h
      simp only [h1, h2, if_false] at h
      exact h
  rw [h']
  exact ⟨rfl, rfl, rfl, rfl, rfl⟩

/-- An instance of C20: transaction 3 has no operation script and transaction 5 is an operation of
another type. -/
theorem UnserializeFromTx_unrecognized_witness :
    UnserializeFromTx exampleLedger exampleHash (SetNull exampleCertificate) 3 150
      = (true, exampleCertificate) ∧
    UnserializeFromTx exampleLedger exampleHash (SetNull exampleCertificate) 5 150
      = (true, exampleCertificate) :=
  ⟨(UnserializeFromTx_unrecognized exampleLedger exampleHash (SetNull exampleCertificate) 3 150
      (Serialize exampleCertificate)
      (vchFromValue (GetHex (GetHash exampleHash exampleCertificate))) 0 exampleCertificate
      (by rfl) (by rfl) (Or.inl (by rfl))).1,
    (UnserializeFromTx_unrecognized exampleLedger exampleHash (SetNull exampleCertificate) 5 150
      (Serialize exampleCertificate)
      (vchFromValue (GetHex (GetHash exampleHash exampleCertificate))) 0 exampleCertificate
      (by rfl) (by rfl) (Or.inr ⟨5, 0, by rfl, by decide, by decide⟩)).1⟩

/-! ## Resolver, decoder and presentation: auxiliary lemmas -/

theorem UnserializeFromTx_of_no_data {Tx : Type} (ledger : Ledger Tx)
    (Hash : List Byte → uint256) (self : CCertificate) (tx : Tx) (height : Nat)
    (hdata : ledger.GetBDAPData tx = none) :
    UnserializeFromTx ledger Hash self tx height = (false, SetNull self) := by
  unfold UnserializeFromTx
  rw [hdata]

theorem UnserializeFromTx_of_decode_false {Tx : Type} (ledger : Ledger Tx)
    (Hash : List Byte → uint256) (self : CCertificate) (tx : Tx) (height : Nat)
    (vchData vchHash : List Byte) (nOut : Int)
    (hdata : ledger.GetBDAPData tx = some (vchData, vchHash, nOut))
    (hdec : (UnserializeFromData Hash self vchData vchHash).1 = false) :
    UnserializeFromTx ledger Hash self tx height =
      (false, (UnserializeFromData Hash self vchData vchHash).2) := by
  unfold UnserializeFromTx
  rw [hdata]
  simp only []
  rw [hdec]
  rfl

theorem UnserializeFromTx_fst_of_decoded {Tx : Type} (ledger : Ledger Tx)
    (Hash : List Byte → uint256) (self : CCertificate) (tx : Tx) (height : Nat)
    (vchData vchHash : List Byte) (nOut : Int)
    (hdata : ledger.GetBDAPData tx = some (vchData, vchHash, nOut))
    (hdec : (UnserializeFromData Hash self vchData vchHash).1 = true) :
    (UnserializeFromTx ledger Hash self tx height).1 = true := by
  have hpair : UnserializeFromData Hash self vchData vchHash =
      (true, (UnserializeFromData Hash self vchData vchHash).2) := by
    rw [← hdec]
  rw [UnserializeFromTx_of_decoded ledger Hash self tx height vchData vchHash nOut _ hdata hpair]
  cases ledger.GetBDAPOpScript tx with
  | none => rfl
  | some ops =>
    obtain ⟨op1, op2⟩ := ops
    simp only []
    split_ifs <;> rfl

theorem UnserializeFromData_isNull_of_false (Hash : List Byte → uint256) (self : CCertificate)
    (data v : List Byte) (h : (UnserializeFromData Hash self data v).1 = false) :
    (UnserializeFromData Hash self data v).2.IsNull := by
  cases hr : SerializationOpRead self data with
  | none =>
    rw [UnserializeFromData_of_read_none Hash self data v hr]
    exact SetNull_isNull self
  | some q =>
    obtain ⟨r', rest⟩ := q
    rw [UnserializeFromData_of_read_some Hash self data v r' rest hr] at h ⊢
    by_cases hv : vchFromValue (GetHex (Hash (Serialize r'))) = v
    · rw [if_neg (not_not.mpr hv)] at h
      cases h
    · rw [if_pos hv]
      exact SetNull_isNull r'

theorem UnserializeFromData_Serialize_append (Hash : List Byte → uint256)
    (self r : CCertificate) (t v : List Byte) (hr : r.InRange) :
    UnserializeFromData Hash self (Serialize r ++ t) v =
      if vchFromValue (GetHex (GetHash Hash r)) ≠ v then (false, SetNull r) else (true, r) :=
  UnserializeFromData_of_read_some Hash self _ v r t (SerializationOpRead_write self r t hr)

theorem UnserializeFromTx_of_approve {Tx : Type} (ledger : Ledger Tx)
    (Hash : List Byte → uint256) (self : CCertificate) (tx : Tx) (height : Nat)
    (vchData vchHash : List Byte) (nOut : Int) (decoded : CCertificate) (op1 op2 : Int)
    (hdata : ledger.GetBDAPData tx = some (vchData, vchHash, nOut))
    (hdec : UnserializeFromData Hash self vchData vchHash = (true, decoded))
    (hop : ledger.GetBDAPOpScript tx = some (op1, op2))
    (htype : ledger.GetBDAPOpTypeString op1 op2 = "bdap_approve_certificate") :
    UnserializeFromTx ledger Hash self tx height =
      (true, { decoded with txHashApprove := ledger.GetHash tx, nHeightApprove := height }) := by
  have h := UnserializeFromTx_of_decoded ledger Hash self tx height vchData vchHash nOut
    decoded hdata hdec
  rw [hop] at h
  have hne : ¬ ("bdap_approve_certificate" = "bdap_new_certificate") := by decide
  simp only [htype, hne, if_false, if_true] at h
  exact h

theorem blockTimeOrZero_eq_approveTime (chain : Chain) (h : Nat) (hchain : chain.WellFormed) :
    blockTimeOrZero chain h = approveTime chain h := by
  obtain ⟨⟨hlo, hhi⟩, hnone⟩ := hchain
  unfold blockTimeOrZero approveTime
  by_cases htip : chain.Height < (h : Int)
  · rw [if_pos htip, hnone h htip]
    split_ifs <;> rfl
  · rw [if_neg htip]
    have hnn : (0 : Int) ≤ chain.Height := by omega
    have hcast : (chain.Height % 2 ^ 32).toNat ≥ h := by omega
    rw [if_pos hcast]
    cases chain.blockTimeAt h <;> rfl

theorem BuildCertificateJson_approved (R : Rendering) (chain : Chain) (c : CCertificate)
    (h : c.nHeightApprove ≠ 0) :
    (BuildCertificateJson R chain c []).1 = true ∧
    (BuildCertificateJson R chain c []).2.lookup "valid_from"
      = some (.num (blockTimeOrZero chain c.nHeightApprove)) ∧
    (BuildCertificateJson R chain c []).2.lookup "valid_until"
      = some (.num (R.AddMonthsToBlockTime (blockTimeOrZero chain c.nHeightApprove)
          c.MonthsValid)) ∧
    (BuildCertificateJson R chain c []).2.lookup "approve_height"
      = some (.str (toString c.nHeightApprove)) := by
  simp only [BuildCertificateJson, h, ne_eq, not_false_eq_true, if_true, List.nil_append]
  exact ⟨trivial, rfl, rfl, rfl⟩

theorem BuildCertificateJson_not_approved (R : Rendering) (chain : Chain) (c : CCertificate)
    (h : c.nHeightApprove = 0) :
    (BuildCertificateJson R chain c []).1 = true ∧
    (BuildCertificateJson R chain c []).2.lookup "valid_from" = none ∧
    (BuildCertificateJson R chain c []).2.lookup "valid_until" = none ∧
    (BuildCertificateJson R chain c []).2.lookup "approve_height" = none := by
  simp only [BuildCertificateJson, h, ne_eq, not_true_eq_false, if_false, List.nil_append]
  exact ⟨trivial, rfl, rfl, rfl⟩

theorem BuildCertificateJson_lookup_approved (R : Rendering) (chain : Chain) (c : CCertificate) :
    (BuildCertificateJson R chain c []).2.lookup "approved"
      = some (.str (if IsApproved c then "True" else "False")) := by
  by_cases h : c.nHeightApprove = 0
  · simp only [BuildCertificateJson, h, ne_eq, not_true_eq_false, if_false, List.nil_append]
    rfl
  · simp only [BuildCertificateJson, h, ne_eq, not_false_eq_true, if_true, List.nil_append]
    rfl

/-! ## Ledger linkage (C21, C22, C24, C28), approval (C23, C25), codec (C26, C27) and
signature checks (C29) -/

/-- C21. Resolver, payload not found: when `GetBDAPData` finds no payload in the transaction,
`UnserializeFromTx` returns `false` and leaves the null record, whatever the record held before,
and the operation classification plays no part: any ledger that finds no payload gives the same
result. -/
theorem UnserializeFromTx_payload_not_found {Tx : Type} (ledger other : Ledger Tx)
    (Hash : List Byte → uint256) (self : CCertificate) (tx : Tx) (height : Nat)
    (hdata : ledger.GetBDAPData tx = none) (hother : other.GetBDAPData tx = none) :
    UnserializeFromTx ledger Hash self tx height = (false, SetNull self) ∧
    (UnserializeFromTx ledger Hash self tx height).2.IsNull ∧
    UnserializeFromTx other Hash self tx height = UnserializeFromTx ledger Hash self tx height := by
  rw [UnserializeFromTx_of_no_data ledger Hash self tx height hdata,
    UnserializeFromTx_of_no_data other Hash self tx height hother]
  exact ⟨rfl, SetNull_isNull self, rfl⟩

/-- An instance of C21: transaction 0 of the example ledger carries no payload; the record is
reset whatever the ledger would classify the operation as. -/
theorem UnserializeFromTx_payload_not_found_witness :
    UnserializeFromTx exampleLedger exampleHash exampleCertificate 0 150
      = (false, SetNull exampleCertificate) ∧
    UnserializeFromTx { exampleLedger with GetBDAPOpScript := fun _ => some (2, 0) } exampleHash
        exampleCertificate 0 150
      = UnserializeFromTx exampleLedger exampleHash exampleCertificate 0 150 :=
  have h := UnserializeFromTx_payload_not_found exampleLedger
    { exampleLedger with GetBDAPOpScript := fun _ => some (2, 0) } exampleHash
    exampleCertificate 0 150 (by rfl) (by rfl)
  ⟨h.1, h.2.2⟩

/-- C22. Resolver success condition: `UnserializeFromTx` returns `true` if and only if the
payload is found and `UnserializeFromData` on it returns `true` (no condition on `ValidateValues`
or on a signature check); when the payload is found and decoding fails, it returns `false` with
the null record, so with no linkage field set, whatever the operation is. -/
theorem UnserializeFromTx_success_condition {Tx : Type} (ledger : Ledger Tx)
    (Hash : List Byte → uint256) (self : CCertificate) (tx : Tx) (height : Nat) :
    ((UnserializeFromTx ledger Hash self tx height).1 = true ↔
      ∃ vchData vchHash nOut, ledger.GetBDAPData tx = some (vchData, vchHash, nOut) ∧
        (UnserializeFromData Hash self vchData vchHash).1 = true) ∧
    (∀ vchData vchHash nOut, ledger.GetBDAPData tx = some (vchData, vchHash, nOut) →
      (UnserializeFromData Hash self vchData vchHash).1 = false →
        (UnserializeFromTx ledger Hash self tx height).1 = false ∧
        (UnserializeFromTx ledger Hash self tx height).2.IsNull) := by
  constructor
  · constructor
    · intro h
      cases hdata : ledger.GetBDAPData tx with
      | none =>
        rw [UnserializeFromTx_of_no_data ledger Hash self tx height hdata] at h
        cases h
      | some p =>
        obtain ⟨vchData, vchHash, nOut⟩ := p
        refine ⟨vchData, vchHash, nOut, rfl, ?_⟩
        cases hdec : (UnserializeFromData Hash self vchData vchHash).1 with
        | true => rfl
        | false =>
          rw [UnserializeFromTx_of_decode_false ledger Hash self tx height vchData vchHash nOut
            hdata hdec] at h
          cases h
    · rintro ⟨vchData, vchHash, nOut, hdata, hdec⟩
      exact UnserializeFromTx_fst_of_decoded ledger Hash self tx height vchData vchHash nOut
        hdata hdec
  · intro vchData vchHash nOut hdata hdec
    rw [UnserializeFromTx_of_decode_false ledger Hash self tx height vchData vchHash nOut
      hdata hdec]
    exact ⟨rfl, UnserializeFromData_isNull_of_false Hash self vchData vchHash hdec⟩

/-- An instance of C22: a record with an empty subject, which fails `ValidateValues`, and with a
subject signature that does not verify, is decoded from a "new certificate" transaction and
linked. -/
theorem UnserializeFromTx_success_condition_witness :
    (ValidateValues exampleLimits exampleUnvalidatedCertificate "").1 = false ∧
    CheckSubjectSignature exampleEd25519 exampleHash exampleUnvalidatedCertificate [1, 2, 3]
      = some false ∧
    (UnserializeFromTx (exampleLedgerCarrying exampleUnvalidatedCertificate) exampleHash
      (SetNull exampleCertificate) 1 100).1 = true ∧
    (UnserializeFromTx (exampleLedgerCarrying exampleUnvalidatedCertificate) exampleHash
      (SetNull exampleCertificate) 1 100).2.nHeightRequest = 100 :=
  ⟨by decide, by decide,
    (UnserializeFromTx_success_condition (exampleLedgerCarrying exampleUnvalidatedCertificate)
      exampleHash (SetNull exampleCertificate) 1 100).1.mpr
      ⟨Serialize exampleUnvalidatedCertificate,
        vchFromValue (GetHex (GetHash exampleHash exampleUnvalidatedCertificate)), 0,
        by rfl, by decide⟩,
    by decide⟩

/-- C23. Approval state: `IsApproved` holds if and only if `nHeightApprove` is non-zero, so it
is the same for two records with the same `nHeightApprove` whatever their other fields; it is the
condition under which `BuildCertificateJson` emits `valid_from`, `valid_until` and
`approve_height`, and the value it renders as `approved`. -/
theorem IsApproved_iff_height_approve_nonzero (R : Rendering) (chain : Chain)
    (c : CCertificate) :
    (IsApproved c = true ↔ c.nHeightApprove ≠ 0) ∧
    (∀ c' : CCertificate, c'.nHeightApprove = c.nHeightApprove →
      IsApproved c' = IsApproved c) ∧
    (IsApproved c = true ↔
      (BuildCertificateJson R chain c []).2.lookup "valid_from" ≠ none ∧
      (BuildCertificateJson R chain c []).2.lookup "valid_until" ≠ none ∧
      (BuildCertificateJson R chain c []).2.lookup "approve_height" ≠ none) ∧
    (IsApproved c = false ↔
      (BuildCertificateJson R chain c []).2.lookup "valid_from" = none ∧
      (BuildCertificateJson R chain c []).2.lookup "valid_until" = none ∧
      (BuildCertificateJson R chain c []).2.lookup "approve_height" = none) ∧
    (BuildCertificateJson R chain c []).2.lookup "approved"
      = some (.str (if IsApproved c then "True" else "False")) := by
  have hiff : IsApproved c = true ↔ c.nHeightApprove ≠ 0 := by simp [IsApproved]
  refine ⟨hiff, ?_, ?_, ?_, BuildCertificateJson_lookup_approved R chain c⟩
  · intro c' hc'
    simp [IsApproved, hc']
  · by_cases h : c.nHeightApprove = 0
    · obtain ⟨-, h1, h2, h3⟩ := BuildCertificateJson_not_approved R chain c h
      simp [IsApproved, h, h1]
    · obtain ⟨-, h1, h2, h3⟩ := BuildCertificateJson_approved R chain c h
      simp [IsApproved, h, h1, h2, h3]
  · by_cases h : c.nHeightApprove = 0
    · obtain ⟨-, h1, h2, h3⟩ := BuildCertificateJson_not_approved R chain c h
      simp [IsApproved, h, h1, h2, h3]
    · obtain ⟨-, h1, h2, h3⟩ := BuildCertificateJson_approved R chain c h
      simp [IsApproved, h, h1]

/-- C24. Permissive approval: when the decoded record is unlinked (`nHeightRequest = 0`,
`nHeightApprove = 0`) and the operation classifies as "bdap_approve_certificate" at a height
`h > 0`, `UnserializeFromTx` succeeds with `nHeightApprove = h` and `IsApproved` true while
`nHeightRequest` is still 0, with no condition on the record's subject or serial number, which
are left as decoded. -/
theorem UnserializeFromTx_permissive_approval {Tx : Type} (ledger : Ledger Tx)
    (Hash : List Byte → uint256) (self : CCertificate) (tx : Tx) (height : Nat)
    (vchData vchHash : List Byte) (nOut : Int) (decoded : CCertificate) (op1 op2 : Int)
    (hdata : ledger.GetBDAPData tx = some (vchData, vchHash, nOut))
    (hdec : UnserializeFromData Hash self vchData vchHash = (true, decoded))
    (hop : ledger.GetBDAPOpScript tx = some (op1, op2))
    (htype : ledger.GetBDAPOpTypeString op1 op2 = "bdap_approve_certificate")
    (hunlinked : decoded.nHeightRequest = 0 ∧ decoded.nHeightApprove = 0)
    (hpos : 0 < height) :
    (UnserializeFromTx ledger Hash self tx height).1 = true ∧
    (UnserializeFromTx ledger Hash self tx height).2.nHeightApprove = height ∧
    IsApproved (UnserializeFromTx ledger Hash self tx height).2 = true ∧
    (UnserializeFromTx ledger Hash self tx height).2.nHeightRequest = 0 ∧
    (UnserializeFromTx ledger Hash self tx height).2.Subject = decoded.Subject ∧
    (UnserializeFromTx ledger Hash self tx height).2.SerialNumber = decoded.SerialNumber := by
  rw [UnserializeFromTx_of_approve ledger Hash self tx height vchData vchHash nOut decoded
    op1 op2 hdata hdec hop htype]
  refine ⟨rfl, rfl, ?_, hunlinked.1, rfl, rfl⟩
  simp only [IsApproved, bne_iff_ne, ne_eq]
  omega

/-- An instance of C24: an "approve certificate" transaction at height 150 for a record that was
never requested. -/
theorem UnserializeFromTx_permissive_approval_witness :
    (UnserializeFromTx (exampleLedgerCarrying exampleUnvalidatedCertificate) exampleHash
      (SetNull exampleCertificate) 2 150).2.nHeightApprove = 150 ∧
    IsApproved (UnserializeFromTx (exampleLedgerCarrying exampleUnvalidatedCertificate)
      exampleHash (SetNull exampleCertificate) 2 150).2 = true ∧
    (UnserializeFromTx (exampleLedgerCarrying exampleUnvalidatedCertificate) exampleHash
      (SetNull exampleCertificate) 2 150).2.nHeightRequest = 0 :=
  have h := UnserializeFromTx_permissive_approval
    (exampleLedgerCarrying exampleUnvalidatedCertificate) exampleHash
    (SetNull exampleCertificate) 2 150 (Serialize exampleUnvalidatedCertificate)
    (vchFromValue (GetHex (GetHash exampleHash exampleUnvalidatedCertificate))) 0
    exampleUnvalidatedCertificate 2 0 (by rfl) (by rfl) (by rfl) (by rfl)
    ⟨by rfl, by rfl⟩ (by decide)
  ⟨h.2.1, h.2.2.1, h.2.2.2.1⟩

/-- C25. Presentation of approval: on a chain with no block above its tip,
`BuildCertificateJson` emits `valid_from`, `valid_until` and `approve_height` if and only if
`nHeightApprove` is non-zero; then `valid_from` is the approve time (the block time at
`nHeightApprove`, or 0 when that height is above the tip or has no block), `valid_until` is
`AddMonthsToBlockTime` of that time and `MonthsValid`, and `approve_height` is the height. -/
theorem BuildCertificateJson_approval_fields (R : Rendering) (chain : Chain)
    (c : CCertificate) (hchain : chain.WellFormed) :
    ((BuildCertificateJson R chain c []).2.lookup "valid_from" ≠ none ↔ c.nHeightApprove ≠ 0) ∧
    ((BuildCertificateJson R chain c []).2.lookup "valid_until" ≠ none ↔
      c.nHeightApprove ≠ 0) ∧
    ((BuildCertificateJson R chain c []).2.lookup "approve_height" ≠ none ↔
      c.nHeightApprove ≠ 0) ∧
    (c.nHeightApprove ≠ 0 →
      (BuildCertificateJson R chain c []).2.lookup "valid_from"
        = some (.num (approveTime chain c.nHeightApprove)) ∧
      (BuildCertificateJson R chain c []).2.lookup "valid_until"
        = some (.num (R.AddMonthsToBlockTime (approveTime chain c.nHeightApprove)
            c.MonthsValid)) ∧
      (BuildCertificateJson R chain c []).2.lookup "approve_height"
        = some (.str (toString c.nHeightApprove))) := by
  by_cases h : c.nHeightApprove = 0
  · obtain ⟨-, h1, h2, h3⟩ := BuildCertificateJson_not_approved R chain c h
    simp [h, h1, h2, h3]
  · obtain ⟨-, h1, h2, h3⟩ := BuildCertificateJson_approved R chain c h
    rw [blockTimeOrZero_eq_approveTime chain _ hchain] at h1 h2
    simp [h, h1, h2, h3]

/-- An instance of C25: a record of 12 months approved at height 150 of the example chain is valid
from time 2500, for 12 months of 2592000 seconds. -/
theorem BuildCertificateJson_approval_fields_witness :
    (BuildCertificateJson exampleRendering exampleChain
      { exampleCertificate with nHeightApprove := 150 } []).2.lookup "valid_from"
      = some (.num 2500) ∧
    (BuildCertificateJson exampleRendering exampleChain
      { exampleCertificate with nHeightApprove := 150 } []).2.lookup "valid_until"
      = some (.num 31106500) ∧
    (BuildCertificateJson exampleRendering exampleChain
      { exampleCertificate with nHeightApprove := 150 } []).2.lookup "approve_height"
      = some (.str "150") :=
  (BuildCertificateJson_approval_fields exampleRendering exampleChain
    { exampleCertificate with nHeightApprove := 150 }
    ⟨⟨by decide, by decide⟩, fun h hh => by
      simp only [exampleChain] at hh ⊢
      rw [if_neg (by omega)]⟩).2.2.2 (by decide)

/-- C26. Trailing bytes are accepted: for every record `r` (with members in the range of
their C++ types) and every byte string `t`, `UnserializeFromData` on `Serialize r ++ t` with the
reference hash of `r` returns `true` and yields `r`. -/
theorem UnserializeFromData_trailing_bytes (Hash : List Byte → uint256)
    (self r : CCertificate) (t : List Byte) (hr : r.InRange) :
    UnserializeFromData Hash self (Serialize r ++ t) (vchFromValue (GetHex (GetHash Hash r)))
      = (true, r) := by
  rw [UnserializeFromData_Serialize_append Hash self r t _ hr]
  exact if_neg (fun hne => hne rfl)

/-- An instance of C26: the serialized example record followed by three more bytes. -/
theorem UnserializeFromData_trailing_bytes_witness :
    UnserializeFromData exampleHash (SetNull exampleCertificate)
      (Serialize exampleCertificate ++ [1, 2, 3])
      (vchFromValue (GetHex (GetHash exampleHash exampleCertificate)))
      = (true, exampleCertificate) :=
  UnserializeFromData_trailing_bytes exampleHash (SetNull exampleCertificate)
    exampleCertificate [1, 2, 3] (by decide)

/-- C28. Approval at height zero: when the payload is found, decodes, and the operation
classifies as "bdap_approve_certificate", resolving it at height 0 returns `true` and sets
`txHashApprove` to the hash of the transaction, yet `nHeightApprove` is 0: the record is not
approved and `BuildCertificateJson` emits none of `valid_from`, `valid_until` and
`approve_height`. -/
theorem UnserializeFromTx_approve_at_height_zero {Tx : Type} (ledger : Ledger Tx)
    (Hash : List Byte → uint256) (self : CCertificate) (tx : Tx) (R : Rendering)
    (chain : Chain)
    (vchData vchHash : List Byte) (nOut : Int) (decoded : CCertificate) (op1 op2 : Int)
    (hdata : ledger.GetBDAPData tx = some (vchData, vchHash, nOut))
    (hdec : UnserializeFromData Hash self vchData vchHash = (true, decoded))
    (hop : ledger.GetBDAPOpScript tx = some (op1, op2))
    (htype : ledger.GetBDAPOpTypeString op1 op2 = "bdap_approve_certificate") :
    (UnserializeFromTx ledger Hash self tx 0).1 = true ∧
    (UnserializeFromTx ledger Hash self tx 0).2.txHashApprove = ledger.GetHash tx ∧
    (UnserializeFromTx ledger Hash self tx 0).2.nHeightApprove = 0 ∧
    IsApproved (UnserializeFromTx ledger Hash self tx 0).2 = false ∧
    (BuildCertificateJson R chain (UnserializeFromTx ledger Hash self tx 0).2 []).2.lookup
      "valid_from" = none ∧
    (BuildCertificateJson R chain (UnserializeFromTx ledger Hash self tx 0).2 []).2.lookup
      "valid_until" = none ∧
    (BuildCertificateJson R chain (UnserializeFromTx ledger Hash self tx 0).2 []).2.lookup
      "approve_height" = none := by
  rw [UnserializeFromTx_of_approve ledger Hash self tx 0 vchData vchHash nOut decoded
    op1 op2 hdata hdec hop htype]
  obtain ⟨-, h1, h2, h3⟩ := BuildCertificateJson_not_approved R chain
    { decoded with txHashApprove := ledger.GetHash tx, nHeightApprove := 0 } rfl
  exact ⟨rfl, rfl, rfl, rfl, h1, h2, h3⟩

/-- An instance of C28: transaction 2 of the example ledger, an "approve certificate" operation,
resolved at height 0. -/
theorem UnserializeFromTx_approve_at_height_zero_witness :
    (UnserializeFromTx exampleLedger exampleHash (SetNull exampleCertificate) 2 0).1 = true ∧
    (UnserializeFromTx exampleLedger exampleHash (SetNull exampleCertificate)
      2 0).2.txHashApprove = 2 ∧
    IsApproved (UnserializeFromTx exampleLedger exampleHash (SetNull exampleCertificate) 2 0).2
      = false ∧
    (BuildCertificateJson exampleRendering exampleChain
      (UnserializeFromTx exampleLedger exampleHash (SetNull exampleCertificate) 2 0).2
      []).2.lookup "valid_from" = none :=
  have h := UnserializeFromTx_approve_at_height_zero exampleLedger exampleHash
    (SetNull exampleCertificate) 2 exampleRendering exampleChain
    (Serialize exampleCertificate)
    (vchFromValue (GetHex (GetHash exampleHash exampleCertificate))) 0 exampleCertificate 2 0
    (by rfl) (by rfl) (by rfl) (by rfl)
  ⟨h.1, h.2.1, h.2.2.2.1, h.2.2.2.2.1⟩

/-- C29. Signature checks ignore the record's own key: two records that agree on the
subject-hash fields and on `SubjectSignature` give the same `CheckSubjectSignature` result under
every key, whatever their other fields; and a record signed with a key pair verifies under that
pair's public key whatever its own `PublicKey` field holds. -/
theorem CheckSubjectSignature_ignores_other_fields (ed : Ed25519)
    (Hash : List Byte → uint256) (a b r : CCertificate)
    (vchPubKey vchPrivKey key publicKeyField : List Byte)
    (hagree : SubjectFieldsAgree a b) (hsig : a.SubjectSignature = b.SubjectSignature)
    (hkey : ∀ msg, ed.ed25519_verify (ed.ed25519_sign msg vchPubKey vchPrivKey) msg vchPubKey
      = true) :
    CheckSubjectSignature ed Hash a key = CheckSubjectSignature ed Hash b key ∧
    CheckSubjectSignature ed Hash
      { (SignSubject ed Hash r vchPubKey vchPrivKey).2 with PublicKey := publicKeyField }
      vchPubKey = some true := by
  constructor
  · obtain ⟨h1, h2, h3, h4, h5, h6, h7, h8, h9, h10, h11⟩ := hagree
    have hhash : GetSubjectHash Hash a = GetSubjectHash Hash b := by
      unfold GetSubjectHash
      rw [h1, h2, h3, h4, h5, h6, h7, h8, h9, h10, h11]
    rw [CheckSubjectSignature_eq, CheckSubjectSignature_eq, hsig, hhash]
  · rw [CheckSubjectSignature_eq]
    simp only [SignSubject, signatureAt_val, Option.map_some', Option.some.injEq]
    exact hkey _

/-- An instance of C29: the example record names the public key [7]; signed with the unrelated key
pair ([1, 2, 3], [1, 2, 3]) it verifies under [1, 2, 3], and so does a copy with other issuer,
months, version and linkage. -/
theorem CheckSubjectSignature_ignores_other_fields_witness :
    CheckSubjectSignature exampleEd25519 exampleHash
        (SignSubject exampleEd25519 exampleHash exampleCertificate [1, 2, 3] [1, 2, 3]).2
        [1, 2, 3]
      = CheckSubjectSignature exampleEd25519 exampleHash
        { (SignSubject exampleEd25519 exampleHash exampleCertificate [1, 2, 3] [1, 2, 3]).2 with
          Issuer := [99], MonthsValid := 1, nVersion := 2, nHeightApprove := 5 }
        [1, 2, 3] ∧
    CheckSubjectSignature exampleEd25519 exampleHash
      { (SignSubject exampleEd25519 exampleHash exampleCertificate [1, 2, 3] [1, 2, 3]).2 with
        PublicKey := [7] }
      [1, 2, 3] = some true :=
  CheckSubjectSignature_ignores_other_fields exampleEd25519 exampleHash
    (SignSubject exampleEd25519 exampleHash exampleCertificate [1, 2, 3] [1, 2, 3]).2
    { (SignSubject exampleEd25519 exampleHash exampleCertificate [1, 2, 3] [1, 2, 3]).2 with
      Issuer := [99], MonthsValid := 1, nVersion := 2, nHeightApprove := 5 }
    exampleCertificate [1, 2, 3] [1, 2, 3] [1, 2, 3] [7]
    ⟨rfl, rfl, rfl, rfl, rfl, rfl, rfl, rfl, rfl, rfl, rfl⟩ rfl
    (fun _ => by simp [exampleEd25519])

end BDAP
